import Mathlib

/-!
Verification of the SuperMag file-reading module (`__init__.py`) against its
natural-language specification.  The Python source is shallowly embedded:

* file lines are `List Char` (without their trailing newline);
* Python floats are modelled as `ℚ`, with `Option ℚ` standing for a float
  that may be NaN (`none` = NaN);
* fallible operations (KeyError, IndexError, ValueError) return `Except` /
  `Option`;
* numpy arrays are `List _` with positional update.

All definitions are translated from the source of `SuperMag._read_supermag`,
`SuperMag.__init__`, `SuperMag.calc_btotal` and `IndexFile._read_indexfile`.
The file is laid out with all definitions first, then all theorems.
-/

namespace Supermag

/-! ## Definitions -/

/-! ### Generic list helpers -/

/-- Positional update of a list (numpy `a[j] = v`); out of range is a no-op
(in the modelled code every write is in range). -/
def listSet {α : Type} : List α → Nat → α → List α
  | [], _, _ => []
  | _ :: xs, 0, v => v :: xs
  | x :: xs, n+1, v => x :: listSet xs n v

/-! ### FiniteDifferenceEngine: the time-derivative stencil

Translated from the `calc_dbdt` block of `SuperMag._read_supermag`:

    dbn = np.zeros(dtime.size+1)
    dbn[1:-1] = (v[2:]-v[:-2])/(dtime[1:]+dtime[:-1])
    dbn[0]    = (-v[2]+4*v[1]-3*v[0])/(dtime[1]+dtime[0])
    dbn[-1]   = (3*v[-1]-4*v[-2]+v[-3])/(dtime[-1]+dtime[-2])

applied to one component sequence `v`, with `g` the inter-sample gaps
(`dtime`, one fewer entry than `v`). -/

/-- numpy `np.zeros(n)`. -/
def npZeros (n : Nat) : List ℚ := List.replicate n 0

/-- numpy slice assignment `dst[start : start+src.length] = src`. -/
def setSlice (dst : List ℚ) (start : Nat) (src : List ℚ) : List ℚ :=
  dst.take start ++ src ++ dst.drop (start + src.length)

/-- Value of a sequence at an index (all uses are in range). -/
def vAt (v : List ℚ) (i : Nat) : ℚ := v.getD i 0

/-- The central-difference slice `(v[2:]-v[:-2])/(dtime[1:]+dtime[:-1])`. -/
def dbdtInterior (v g : List ℚ) : List ℚ :=
  List.zipWith (· / ·)
    (List.zipWith (· - ·) (v.drop 2) (v.take (v.length - 2)))
    (List.zipWith (· + ·) (g.drop 1) (g.take (g.length - 1)))

/-- The forward three-point stencil assigned to `dbn[0]`. -/
def dbdtFirst (v g : List ℚ) : ℚ :=
  (-(vAt v 2) + 4 * vAt v 1 - 3 * vAt v 0) / (vAt g 1 + vAt g 0)

/-- The backward three-point stencil assigned to `dbn[-1]` (Python negative
indices `-1, -2, -3` resolved against the list lengths). -/
def dbdtLast (v g : List ℚ) : ℚ :=
  (3 * vAt v (v.length - 1) - 4 * vAt v (v.length - 2) + vAt v (v.length - 3)) /
    (vAt g (g.length - 1) + vAt g (g.length - 2))

/-- One component's time derivative, exactly as the source computes `dbn`:
a zero array of size `dtime.size + 1`, the interior slice assigned the
central differences, then the first and last entries overwritten by the
one-sided three-point stencils. -/
def dbdt (v g : List ℚ) : List ℚ :=
  listSet
    (listSet (setSlice (npZeros (g.length + 1)) 1 (dbdtInterior v g)) 0 (dbdtFirst v g))
    (g.length + 1 - 1) (dbdtLast v g)

/-- The radicand of the combined derivative `np.sqrt(dbn**2 + dbe**2)`,
pointwise over the two per-component derivative sequences (the `np.sqrt`
itself appears in the theorems as `Real.sqrt`, since square roots of
rationals are irrational in general). -/
def dbdtHsq (vn ve g : List ℚ) : List ℚ :=
  List.zipWith (fun a b => a^2 + b^2) (dbdt vn g) (dbdt ve g)

/-! ### Derived magnitudes -/

/-- Radicand of the horizontal-field magnitude, from the `calc_H` block:
`np.sqrt(bn**2 + be**2)` on the first two (north/east) components.  The
magnitude itself is `Real.sqrt` of this, applied in the theorems. -/
def calc_H_sq (bn be : ℚ) : ℚ := bn^2 + be^2

/-- Radicand of the total perturbation, from `SuperMag.calc_btotal`:
`np.sqrt(bx**2 + by**2 + bz**2)` — note the vertical component is
included.  The magnitude itself is `Real.sqrt` of this. -/
def calc_btotal_sq (x y z : ℚ) : ℚ := x^2 + y^2 + z^2

/-! ### Local time (`SuperMag.__init__`, `load_info` branch) -/

/-- A calendar timestamp with second resolution (the part of a Python
`datetime` this module observes). -/
structure DT where
  year : Nat
  month : Nat
  day : Nat
  hour : Nat
  minute : Nat
  sec : Nat
  deriving DecidableEq, Repr

/-- `x.hour + x.minute/60. + x.second/3600` for one timestamp. -/
def hoursOf (t : DT) : ℚ := (t.hour : ℚ) + (t.minute : ℚ) / 60 + (t.sec : ℚ) / 3600

/-- One entry of the local-time computation:
`lt = hours + geolon*24/360`, then `lt[lt>=24] -= 24` (a single conditional
subtraction; nothing is added when `lt` is negative). -/
def ltOf (hours geolon : ℚ) : ℚ :=
  let lt := hours + geolon * 24 / 360
  if 24 ≤ lt then lt - 24 else lt

/-! ### Characters, tokens and lines -/

/-- A file line, without its trailing newline. -/
abbrev Line := List Char

/-- A whitespace-free token produced by `str.split()`. -/
abbrev Tok := List Char

/-- A station code (normally three letters). -/
abbrev Station := List Char

/-- The whitespace characters of Python `str.split` and of the regex
class `\s`. -/
def isWsChar (c : Char) : Bool :=
  c = ' ' || c = '\t' || c = '\n' || c = '\r' || c = '\x0b' || c = '\x0c'

/-- Regex class `\d`. -/
def isDigitChar (c : Char) : Bool := '0' ≤ c && c ≤ '9'

/-- Helper for `splitWs`: accumulate the current token (reversed). -/
def splitWsAux : List Char → List Char → List Tok
  | [], acc => if acc.isEmpty then [] else [acc.reverse]
  | c :: cs, acc =>
    if isWsChar c then
      if acc.isEmpty then splitWsAux cs [] else acc.reverse :: splitWsAux cs []
    else splitWsAux cs (c :: acc)

/-- Python `str.split()`: split on whitespace runs, no empty tokens. -/
def splitWs (l : Line) : List Tok := splitWsAux l []

/-- Helper for `splitOnChar`. -/
def splitOnCharAux (ch : Char) : List Char → List Char → List Tok
  | [], acc => [acc.reverse]
  | c :: cs, acc =>
    if c = ch then acc.reverse :: splitOnCharAux ch cs []
    else splitOnCharAux ch cs (c :: acc)

/-- Python `str.split(ch)` for a single separator: non-collapsing, may
produce empty tokens, always produces at least one token. -/
def splitOnChar (ch : Char) (l : List Char) : List Tok := splitOnCharAux ch l []

/-- Does `hay` start with `needle`? -/
def listStartsWith : List Char → List Char → Bool
  | [], _ => true
  | _ :: _, [] => false
  | a :: as, b :: bs => a = b && listStartsWith as bs

/-- Python substring containment `needle in hay`. -/
def containsSub (needle : Line) : Line → Bool
  | [] => needle.isEmpty
  | c :: cs => listStartsWith needle (c :: cs) || containsSub needle cs

/-- Decimal value of a digit string. -/
def digitsVal (ds : List Char) : Nat := ds.foldl (fun a c => 10 * a + (c.toNat - 48)) 0

/-- Python `int(s)`: optional surrounding whitespace, optional sign, one or
more digits, nothing else. -/
def parseIntTok (t : List Char) : Option Int :=
  let t1 := ((t.dropWhile isWsChar).reverse.dropWhile isWsChar).reverse
  let sgnBody : Int × List Char :=
    match t1 with
    | '+' :: r => (1, r)
    | '-' :: r => (-1, r)
    | _ => (1, t1)
  if sgnBody.2.isEmpty || !sgnBody.2.all isDigitChar then none
  else some (sgnBody.1 * digitsVal sgnBody.2)

/-- Exponent suffix of a float literal: empty, or `e`/`E` with optional sign
and one or more digits; returns the power-of-ten factor. -/
def parseExpPart : List Char → Option ℚ
  | [] => some 1
  | c :: r =>
    if c = 'e' || c = 'E' then
      let negBody : Bool × List Char :=
        match r with
        | '+' :: r2 => (false, r2)
        | '-' :: r2 => (true, r2)
        | _ => (false, r)
      if negBody.2.isEmpty || !negBody.2.all isDigitChar then none
      else if negBody.1 then some (1 / (10 ^ digitsVal negBody.2 : ℚ))
      else some ((10 ^ digitsVal negBody.2 : ℚ))
    else none

/-- Python `float(tok)` restricted to finite decimal literals (optional
sign, digits with at most one point, optional exponent) — the shape of
every numeric field in these files. -/
def parseFloat (t : Tok) : Option ℚ :=
  let sgnBody : ℚ × List Char :=
    match t with
    | '+' :: r => (1, r)
    | '-' :: r => (-1, r)
    | _ => (1, t)
  let ip := sgnBody.2.takeWhile isDigitChar
  let r1 := sgnBody.2.dropWhile isDigitChar
  match r1 with
  | '.' :: r2 =>
    let fp := r2.takeWhile isDigitChar
    let r3 := r2.dropWhile isDigitChar
    if ip.isEmpty && fp.isEmpty then none
    else
      match parseExpPart r3 with
      | none => none
      | some e =>
          some (sgnBody.1 * ((digitsVal ip : ℚ) + (digitsVal fp : ℚ) / (10 ^ fp.length : ℚ)) * e)
  | _ =>
    if ip.isEmpty then none
    else
      match parseExpPart r1 with
      | none => none
      | some e => some (sgnBody.1 * (digitsVal ip : ℚ) * e)

/-! ### Timestamps -/

def isLeapYear (y : Nat) : Bool := (y % 4 = 0 && y % 100 ≠ 0) || y % 400 = 0

def daysInMonth (y m : Nat) : Nat :=
  if m = 2 then (if isLeapYear y then 29 else 28)
  else if m = 4 || m = 6 || m = 9 || m = 11 then 30 else 31

/-- The range validation performed by the `datetime.datetime` constructor. -/
def mkDT (y mo d h mi s : Nat) : Option DT :=
  if 1 ≤ y && y ≤ 9999 && 1 ≤ mo && mo ≤ 12 && 1 ≤ d && d ≤ daysInMonth y mo
      && h ≤ 23 && mi ≤ 59 && s ≤ 59 then
    some ⟨y, mo, d, h, mi, s⟩
  else none

/-- Is `c` in the character range `lo`-`hi`? -/
def chRange (lo hi c : Char) : Bool := lo ≤ c && c ≤ hi

/-- A two-character regex alternative: first character in class `p`, second
in class `q`; the value is the two-digit number they spell. -/
def alt2 (p q : Char → Bool) : Line → Option (Nat × Line)
  | c1 :: c2 :: r =>
    if p c1 && q c2 then some (10 * (c1.toNat - 48) + (c2.toNat - 48), r)
    else none
  | _ => none

/-- A one-character regex alternative with character class `p`. -/
def alt1 (p : Char → Bool) : Line → Option (Nat × Line)
  | c :: r => if p c then some (c.toNat - 48, r) else none
  | [] => none

/-- The ` [1-9]` alternative of `%d`: a space then a nonzero digit
(Python's `int(' d')` strips the space, so the value is the digit). -/
def altSp : Line → Option (Nat × Line)
  | c1 :: c2 :: r =>
    if c1 = ' ' && chRange '1' '9' c2 then some (c2.toNat - 48, r) else none
  | _ => none

/-- Try the alternatives in order; on a match run the continuation on the
rest and fall back to the next alternative when it fails: the regex
engine's leftmost preference with backtracking. -/
def altsThen {β : Type} : List (Line → Option (Nat × Line)) →
    (Nat → Line → Option β) → Line → Option β
  | [], _, _ => none
  | a :: as, k, s =>
    match a s with
    | none => altsThen as k s
    | some (v, s2) =>
      match k v s2 with
      | some b => some b
      | none => altsThen as k s

/-- Field `%m`: `1[0-2]|0[1-9]|[1-9]`. -/
def monthAlts : List (Line → Option (Nat × Line)) :=
  [alt2 (chRange '1' '1') (chRange '0' '2'),
   alt2 (chRange '0' '0') (chRange '1' '9'),
   alt1 (chRange '1' '9')]

/-- Field `%d`: `3[0-1]|[1-2]\d|0[1-9]|[1-9]| [1-9]`. -/
def dayAlts : List (Line → Option (Nat × Line)) :=
  [alt2 (chRange '3' '3') (chRange '0' '1'),
   alt2 (chRange '1' '2') isDigitChar,
   alt2 (chRange '0' '0') (chRange '1' '9'),
   alt1 (chRange '1' '9'),
   altSp]

/-- Field `%H`: `2[0-3]|[0-1]\d|\d`. -/
def hourAlts : List (Line → Option (Nat × Line)) :=
  [alt2 (chRange '2' '2') (chRange '0' '3'),
   alt2 (chRange '0' '1') isDigitChar,
   alt1 isDigitChar]

/-- Field `%M`: `[0-5]\d|\d`. -/
def minuteAlts : List (Line → Option (Nat × Line)) :=
  [alt2 (chRange '0' '5') isDigitChar, alt1 isDigitChar]

/-- Field `%S`: `6[0-1]|[0-5]\d|\d` (the 60-61 leap-second range is
accepted by the regex and rejected later by the `datetime` constructor). -/
def secondAlts : List (Line → Option (Nat × Line)) :=
  [alt2 (chRange '6' '6') (chRange '0' '1'),
   alt2 (chRange '0' '5') isDigitChar,
   alt1 isDigitChar]

/-- CPython compiles `'%Y%m%d%H%M%S'` to the anchored pattern
`(\d\d\d\d)(1[0-2]|0[1-9]|[1-9])(3[0-1]|[1-2]\d|0[1-9]|[1-9]| [1-9])(2[0-3]|[0-1]\d|\d)([0-5]\d|\d)(6[0-1]|[0-5]\d|\d)`
and runs `re.match`: four digits for `%Y` (digits taken as ASCII), then the
field alternations with leftmost preference and backtracking over later
field failures; the unconsumed rest is returned alongside the six values. -/
def matchStampRe : Line → Option (Nat × Nat × Nat × Nat × Nat × Nat × Line)
  | c1 :: c2 :: c3 :: c4 :: r =>
    if [c1, c2, c3, c4].all isDigitChar then
      altsThen monthAlts (fun mo r1 =>
        altsThen dayAlts (fun d r2 =>
          altsThen hourAlts (fun h r3 =>
            altsThen minuteAlts (fun mi r4 =>
              altsThen secondAlts (fun sec r5 =>
                some (digitsVal [c1, c2, c3, c4], mo, d, h, mi, sec, r5)) r4)
              r3) r2) r1) r
    else none
  | _ => none

/-- `dt.datetime.strptime(''.join(line.split()[:6]), '%Y%m%d%H%M%S')`:
match the compiled pattern against the join of the first six tokens,
raise unless it matches with nothing left over (`unconverted data
remains`), then build the `datetime`, whose constructor validates the
ranges. -/
def parseStampJoined (parts : List Tok) : Option DT :=
  match matchStampRe ((parts.take 6).flatten) with
  | some (y, mo, d, h, mi, sec, rest) =>
    if rest.isEmpty then mkDT y mo d h mi sec else none
  | none => none

/-- `dt.datetime.strptime(' '.join(parts[:6]), '%Y %m %d %H %M %S')` as used
by `IndexFile`: six tokens, a 4-digit year, the other fields 1 or 2 digits,
plus `datetime`'s range validation. -/
def parseStampSpaced (parts : List Tok) : Option DT :=
  match parts.take 6 with
  | [y, mo, d, h, mi, s] =>
    if y.length = 4 && y.all isDigitChar
        && [mo, d, h, mi, s].all
          (fun t => (t.length = 1 || t.length = 2) && t.all isDigitChar) then
      mkDT (digitsVal y) (digitsVal mo) (digitsVal d) (digitsVal h) (digitsVal mi)
        (digitsVal s)
    else none
  | _ => none

/-! ### The record-counting pattern -/

/-- Consume one `\s` character then the rest of the whitespace run (maximal
munch; equivalent to `\s+` here because the pattern continues with `\d`,
which is disjoint from `\s`). -/
def eatWs1 : List Char → Option (List Char)
  | c :: r => if isWsChar c then some (r.dropWhile isWsChar) else none
  | [] => none

/-- Consume exactly `k` digit characters. -/
def eatDigits : Nat → List Char → Option (List Char)
  | 0, l => some l
  | _+1, [] => none
  | k+1, c :: r => if isDigitChar c then eatDigits k r else none

/-- `bool(re.match('^\d{4}\s+\d{2}\s+\d{2}\s+', l))`. -/
def timePat (l : Line) : Bool :=
  (do
    let r1 ← eatDigits 4 l
    let r2 ← eatWs1 r1
    let r3 ← eatDigits 2 r2
    let r4 ← eatWs1 r3
    let r5 ← eatDigits 2 r4
    eatWs1 r5).isSome

/-- First pass over the data lines: `nTime += 1*bool(re.match(...))`. -/
def countTime (lines : List Line) : Nat :=
  (lines.map (fun l => if timePat l then 1 else 0)).sum

/-! ### The data grid -/

/-- The six value arrays of one station: `bx, by, bz, bx_geo, by_geo,
bz_geo` in the source (`by` is a Lean keyword, hence the `c` prefix). -/
inductive Comp
  | cbx | cby | cbz | cbx_geo | cby_geo | cbz_geo
  deriving DecidableEq, Repr

/-- Is this one of the three components filtered by the bad-data pass
(`for x in ['bx','by','bz']`)? -/
def Comp.isNez : Comp → Bool
  | .cbx => true | .cby => true | .cbz => true
  | .cbx_geo => false | .cby_geo => false | .cbz_geo => false

/-- One station's six arrays; an entry of `none` models NaN. -/
abbrev StationData := Comp → List (Option ℚ)

/-- The station-keyed part of the `SuperMag` dict. -/
abbrev Grid := List (Station × StationData)

/-- `np.zeros([nTime]) + 999999.` for each of the six components. -/
def initSD (nTime : Nat) : StationData := fun _ => List.replicate nTime (some 999999)

/-- `for s in stats: self[s] = {...}` with all-sentinel arrays. -/
def initGrid : List Station → Nat → Grid
  | [], _ => []
  | s :: rest, nTime => (s, initSD nTime) :: initGrid rest nTime

/-- Dict lookup `self[s]` (first matching key). -/
def lookupG : Grid → Station → Option StationData
  | [], _ => none
  | p :: rest, s => if p.1 = s then some p.2 else lookupG rest s

/-- Dict update of key `s` by `f`, other keys untouched. -/
def updStation : Grid → Station → (StationData → StationData) → Grid
  | [], _, _ => []
  | p :: rest, s, f => (if p.1 = s then (p.1, f p.2) else p) :: updStation rest s f

/-- Entry of station `s`, component `c`, time index `j` (outer `none` when
the station or index does not exist; inner `none` is NaN). -/
def gridAt (g : Grid) (s : Station) (c : Comp) (j : Nat) : Option (Option ℚ) :=
  (lookupG g s).bind (fun d => (d c).get? j)

/-- Python exception kinds that abort `SuperMag.__init__` /
`IndexFile.__init__`.  `eof` stands for Python blocking forever on
`readline` returning empty strings at end of file. -/
inductive Err
  | valueError
  | keyError
  | indexError
  | eof
  deriving DecidableEq, Repr

/-- Python token indexing `parts[i]` with negative-index semantics. -/
def getTokPy (parts : List Tok) (i : Int) : Option Tok :=
  if 0 ≤ i then parts.get? i.toNat
  else if 0 ≤ i + parts.length then parts.get? (i + parts.length).toNat
  else none

/-- Fetch token `parts[i]` and convert it to float (`IndexError` /
`ValueError` on failure). -/
def readVal (parts : List Tok) (i : Int) : Except Err ℚ :=
  match getTokPy parts i with
  | none => .error .indexError
  | some t =>
    match parseFloat t with
    | none => .error .valueError
    | some q => .ok q

/-- The six numeric fields of one value line at the revision's offsets:
`parts[iOff] .. parts[iOff+5]`, converted to float. -/
def parseSixVals (parts : List Tok) (iOff : Int) : Except Err (Comp → ℚ) := do
  let v0 ← readVal parts iOff
  let v1 ← readVal parts (iOff + 1)
  let v2 ← readVal parts (iOff + 2)
  let v3 ← readVal parts (iOff + 3)
  let v4 ← readVal parts (iOff + 4)
  let v5 ← readVal parts (iOff + 5)
  pure fun c => match c with
    | .cbx => v0 | .cby => v1 | .cbz => v2
    | .cbx_geo => v3 | .cby_geo => v4 | .cbz_geo => v5

/-- Write the six parsed values into one station's arrays at time index
`j`. -/
def setSix (j : Nat) (vals : Comp → ℚ) (d : StationData) : StationData :=
  fun c => listSet (d c) j (some (vals c))

/-- Body of one inner-loop iteration: `parts = line.split()`, then
`self[parts[0]][x][j] = parts[iOff+k]` for the six components
(`KeyError` when `parts[0]` is not a dict key). -/
def fillStation (g : Grid) (iOff : Int) (j : Nat) (parts : List Tok) :
    Except Err Grid :=
  match parts.head? with
  | none => .error .indexError
  | some s0 =>
    match lookupG g s0 with
    | none => .error .keyError
    | some _ => do
      let vals ← parseSixVals parts iOff
      pure (updStation g s0 (setSix j vals))

/-- The inner `while line[:3] in stats` loop: consume successive value lines
of the current record.  At end of input Python's `readline` yields the empty
string, whose 3-prefix ends the loop. -/
def consumeBlock (stats : List Station) (iOff : Int) (j : Nat) :
    List Line → Grid → Except Err (Grid × List Line)
  | [], g => .ok (g, [])
  | l :: rest, g =>
    if l.take 3 ∈ stats then do
      let g' ← fillStation g iOff j (splitWs l)
      consumeBlock stats iOff j rest g'
    else .ok (g, l :: rest)

/-- The outer `for j in range(nTime)` loop: parse the record's timestamp
from the current line (a `ValueError` aborts everything), then consume the
record's value lines.  `j` is the current record index, `fuel` the number of
records still to read. -/
def fillRecords (stats : List Station) (iOff : Int) :
    Nat → Nat → List Line → Grid → List DT → Except Err (List DT × Grid)
  | _, 0, _, g, acc => .ok (acc.reverse, g)
  | j, fuel+1, lines, g, acc =>
    match lines with
    | [] => .error .valueError
    | l :: rest =>
      match parseStampJoined (splitWs l) with
      | none => .error .valueError
      | some t => do
        let (g', rest') ← consumeBlock stats iOff j rest g
        fillRecords stats iOff (j+1) fuel rest' g' (t :: acc)

/-- `self[s][x][self[s][x]>=999999.] = np.nan` applied to one entry. -/
def filterEntry (v : Option ℚ) : Option ℚ :=
  match v with
  | none => none
  | some q => if 999999 ≤ q then none else some q

/-- `self[s][x][self[s][x]>=999999.] = np.nan` applied to one array. -/
def filterComp (xs : List (Option ℚ)) : List (Option ℚ) := xs.map filterEntry

/-- The bad-data filter of one station: only `bx`, `by`, `bz` are filtered;
the three `_geo` arrays are left untouched. -/
def filterSD (d : StationData) : StationData :=
  fun c => if c.isNez then filterComp (d c) else d c

/-- `for s in stats: for x in ['bx','by','bz']: ...` over the whole grid. -/
def filterGrid : Grid → Grid
  | [] => []
  | p :: rest => (p.1, filterSD p.2) :: filterGrid rest

/-! ### Header scanning and revision resolution -/

/-- `self.vers`: a declared revision number or `'unrecognized'`. -/
inductive Rev
  | known (n : Int)
  | unrecognized
  deriving DecidableEq, Repr

/-- The module-level table `varmap = {2:1, 5:-6, 6:-6}`. -/
def varmapPairs : List (Int × Int) := [(2, 1), (5, -6), (6, -6)]

/-- `max(varmap.keys())`. -/
def maxKnownRev : Int := (varmapPairs.map Prod.fst).foldl max 0

/-- `varmap[vers]`, with `varmap['unrecognized'] = varmap[max(varmap.keys())]`. -/
def varmapLookup : Rev → Option Int
  | .known n => varmapPairs.lookup n
  | .unrecognized => varmapPairs.lookup maxKnownRev

def selectedMark : Line := "Selected".data
def revisionMark : Line := "Revision".data
def stationsMark : Line := "Stations".data
def sepMark : Line := "==".data
def paramMark : Line := "Parameters".data

/-- The first header loop: scan for the line containing `Selected`, watching
for a `Revision:` declaration (`self.vers = int(line.split(':')[-1])`);
`nSkip` counts lines read so far.  An exhausted stream is an error (Python
would loop forever on `readline` returning empty strings). -/
def scanSelectedAux : List Line → Rev → Nat →
    Except Err (Rev × Nat × Line × List Line)
  | [], _, _ => .error .eof
  | line :: rest, v, nSkip =>
    if containsSub selectedMark line then .ok (v, nSkip, line, rest)
    else
      match (if containsSub revisionMark line then
          (parseIntTok ((splitOnChar ':' line).getLastD [])).map Rev.known
        else some v) with
      | none => .error .valueError
      | some v' => scanSelectedAux rest v' (nSkip + 1)

/-- Read the first line, then run the `Selected` scan with `nSkip = 1`. -/
def scanSelected (fileLines : List Line) :
    Except Err (Rev × Nat × Line × List Line) :=
  scanSelectedAux fileLines .unrecognized 1

/-- The header-skip loop
`while '==' not in line and 'Parameters' not in line: line = f.readline()`. -/
def scanSepAux : Line → List Line → Nat → Except Err (Nat × List Line)
  | line, rest, nSkip =>
    if containsSub sepMark line || containsSub paramMark line then .ok (nSkip, rest)
    else
      match rest with
      | [] => .error .eof
      | l2 :: rest2 => scanSepAux l2 rest2 (nSkip + 1)

/-- `head = line if 'Stations' in line else f.readline()`: the line holding
the station list, and the stream position after it (an exhausted stream
yields the empty line). -/
def headOf (selLine : Line) (rest1 : List Line) : Line × List Line :=
  if containsSub stationsMark selLine then (selLine, rest1)
  else
    match rest1 with
    | [] => ([], [])
    | h :: r => (h, r)

/-- The result of `SuperMag._read_supermag`.  `rawGrid` is the grid as it
stands right after the fill pass, before the bad-data filter; `grid` is the
final filtered grid. -/
structure SMResult where
  vers : Rev
  warned : Bool
  iOff : Int
  stations : List Station
  nstats : Nat
  nSkip : Nat
  nTime : Nat
  time : List DT
  rawGrid : Grid
  grid : Grid

/-- `SuperMag._read_supermag`, end to end, on the file's lines.  The
`warned` field records whether `warnings.warn` was called (the observable
side effect of an unrecognized revision). -/
def readSupermag (fileLines : List Line) : Except Err SMResult := do
  let (vers, nSkip1, selLine, rest1) ← scanSelected fileLines
  let warned := decide (vers = Rev.unrecognized)
  let iOff ← match varmapLookup vers with
    | none => Except.error Err.keyError
    | some i => Except.ok i
  let headRest : Line × List Line := headOf selLine rest1
  let lastTok ← match (splitWs headRest.1).getLast? with
    | none => Except.error Err.indexError
    | some t => Except.ok t
  let stats := splitOnChar ',' lastTok
  let (nSkip, dataLines) ← scanSepAux selLine headRest.2 nSkip1
  let nTime := countTime dataLines
  let skipCount := nSkip + (if vers = Rev.known 2 then 1 else 0)
  let (time, rawGrid) ← fillRecords stats iOff 0 nTime (fileLines.drop skipCount)
      (initGrid stats nTime) []
  pure { vers := vers, warned := warned, iOff := iOff, stations := stats,
         nstats := stats.length, nSkip := nSkip, nTime := nTime,
         time := time, rawGrid := rawGrid, grid := filterGrid rawGrid }

/-! ### IndexFile -/

/-- The variable arrays of an `IndexFile`, keyed by variable name. -/
abbrev IdxVars := List (Tok × List ℚ)

/-- `for v in varnames: self[v] = np.zeros(nLines)`. -/
def idxInit : List Tok → Nat → IdxVars
  | [], _ => []
  | v :: rest, nLines => (v, List.replicate nLines (0 : ℚ)) :: idxInit rest nLines

/-- Dict lookup `self[v]` (first matching key). -/
def lookupV : IdxVars → Tok → Option (List ℚ)
  | [], _ => none
  | p :: rest, v => if p.1 = v then some p.2 else lookupV rest v

/-- Dict update of variable `v` by `f`. -/
def updVar : IdxVars → Tok → (List ℚ → List ℚ) → IdxVars
  | [], _, _ => []
  | p :: rest, v, f => (if p.1 = v then (p.1, f p.2) else p) :: updVar rest v f

/-- `for v, x in zip(varnames, parts[6:]): self[v][i] = x` — the zip
truncates at the shorter list, so surplus variables are simply not
assigned. -/
def idxFillRow (i : Nat) : List (Tok × Tok) → IdxVars → Except Err IdxVars
  | [], vs => .ok vs
  | (v, x) :: rest, vs =>
    match parseFloat x with
    | none => .error .valueError
    | some q => idxFillRow i rest (updVar vs v (fun xs => listSet xs i q))

/-- The row loop of `IndexFile._read_indexfile`: timestamp from the first
six tokens, then the truncating zip assignment. -/
def idxFillRows (varnames : List Tok) :
    Nat → List Line → IdxVars → List DT → Except Err (List DT × IdxVars)
  | _, [], vs, acc => .ok (acc.reverse, vs)
  | i, l :: rest, vs, acc =>
    let parts := splitWs l
    match parseStampSpaced parts with
    | none => .error .valueError
    | some t => do
      let vs' ← idxFillRow i (List.zip varnames (parts.drop 6)) vs
      idxFillRows varnames (i + 1) rest vs' (t :: acc)

/-- `IndexFile._read_indexfile` from the point where the variable names and
the data lines are in hand (the regex extraction of `varnames` from the
header is taken as a parameter). -/
def readIndexFile (varnames : List Tok) (lines : List Line) :
    Except Err (List DT × IdxVars) :=
  idxFillRows varnames 0 lines (idxInit varnames lines.length) []

/-! ### Observation helpers for statements about `Except` results -/

/-- Did the computation raise? -/
def isErr {α : Type} : Except Err α → Bool
  | .error _ => true
  | .ok _ => false

/-- Observe a successful result through a projection (`none` when the
computation raised). -/
def okProj {α β : Type} (f : α → β) : Except Err α → Option β
  | .error _ => none
  | .ok x => some (f x)

/-- Decidable equality for `Except` results with decidable components. -/
def exceptDecEq {ε α : Type} [DecidableEq ε] [DecidableEq α] :
    DecidableEq (Except ε α)
  | .error e, .error f =>
    if h : e = f then .isTrue (by rw [h]) else .isFalse (by intro hc; cases hc; exact h rfl)
  | .error _, .ok _ => .isFalse (by intro hc; cases hc)
  | .ok _, .error _ => .isFalse (by intro hc; cases hc)
  | .ok x, .ok y =>
    if h : x = y then .isTrue (by rw [h]) else .isFalse (by intro hc; cases hc; exact h rfl)

instance {ε α : Type} [DecidableEq ε] [DecidableEq α] : DecidableEq (Except ε α) :=
  exceptDecEq

/-! ### Record blocks: the logical structure of the data section

A well-formed data section is a sequence of records, each a timestamp line
followed by the value lines of the stations reporting at that epoch.  These
definitions only name that structure; the parser itself works on the flat
line list. -/

/-- One logical record: its timestamp line and its value lines. -/
structure RecordBlock where
  timeLine : Line
  statLines : List Line

/-- The flat line sequence of a list of records. -/
def flattenBlocks (bs : List RecordBlock) : List Line :=
  (bs.map (fun b => b.timeLine :: b.statLines)).flatten

/-- Indexing into a block list (out of range yields an empty block). -/
def blockGet (bs : List RecordBlock) (k : Nat) : RecordBlock := bs.getD k ⟨[], []⟩

/-- The dict key a value line is stored under: its first token
(`parts[0]`). -/
def lineKey (l : Line) : Option Tok := (splitWs l).head?

/-- The six parsed values of a value line (defaults are never reached on
well-formed lines). -/
def sixOf (l : Line) (iOff : Int) : Comp → ℚ :=
  match parseSixVals (splitWs l) iOff with
  | .ok v => v
  | .error _ => fun _ => 0

/-- The parsed timestamp of a record (default never reached on well-formed
blocks). -/
def stampOf (b : RecordBlock) : DT :=
  (parseStampJoined (splitWs b.timeLine)).getD ⟨1, 1, 1, 0, 0, 0⟩

/-- Well-formedness of one value line: the prefix test recognizes it, the
counting pass does not count it, its key is a station, and its six fields
parse at the offsets. -/
def statLineOK (stats : List Station) (iOff : Int) (l : Line) : Bool :=
  decide (l.take 3 ∈ stats) && !timePat l &&
    (match lineKey l with
     | some s0 => decide (s0 ∈ stats)
     | none => false) &&
    !isErr (parseSixVals (splitWs l) iOff)

/-- Well-formedness of one record block: the timestamp parses, the time
line is counted by the counting pass and not mistaken for a value line,
every value line is well-formed, and no station reports twice. -/
def blockOK (stats : List Station) (iOff : Int) (b : RecordBlock) : Bool :=
  (parseStampJoined (splitWs b.timeLine)).isSome && timePat b.timeLine &&
    !decide (b.timeLine.take 3 ∈ stats) &&
    b.statLines.all (statLineOK stats iOff) &&
    decide ((b.statLines.map lineKey).Nodup)

/-- Well-formedness of a whole data section. -/
def blocksOK (stats : List Station) (iOff : Int) (bs : List RecordBlock) : Bool :=
  bs.all (blockOK stats iOff)

/-- Length of one station's component array (`none` when the station is not
a key). -/
def seqLen (g : Grid) (s : Station) (c : Comp) : Option Nat :=
  (lookupG g s).map (fun d => (d c).length)

/-- The value transformation applied by the bad-data filter to one entry of
one component. -/
def filterVal (c : Comp) (v : Option ℚ) : Option ℚ :=
  if c.isNez then
    match v with
    | none => none
    | some q => if 999999 ≤ q then none else some q
  else v

/-- Declarative reading of the record-counting pattern
`^\d{4}\s+\d{2}\s+\d{2}\s+`: four digits, whitespace, two digits,
whitespace, two digits, whitespace, then anything. -/
def TimePatSpec (l : Line) : Prop :=
  ∃ d1 w1 d2 w2 d3 w3 rest : List Char,
    l = d1 ++ w1 ++ d2 ++ w2 ++ d3 ++ w3 ++ rest ∧
    d1.length = 4 ∧ d1.all isDigitChar = true ∧
    d2.length = 2 ∧ d2.all isDigitChar = true ∧
    d3.length = 2 ∧ d3.all isDigitChar = true ∧
    w1 ≠ [] ∧ w1.all isWsChar = true ∧
    w2 ≠ [] ∧ w2.all isWsChar = true ∧
    w3 ≠ [] ∧ w3.all isWsChar = true

/-- Entry of an `IndexFile` variable array at a row index. -/
def idxAt (vs : IdxVars) (v : Tok) (j : Nat) : Option ℚ :=
  (lookupV vs v).bind (fun xs => xs.get? j)

/-- The parsed float of a token (default never reached on well-formed
rows). -/
def floatOf (x : Tok) : ℚ := (parseFloat x).getD 0

/-! ### Concrete example files -/

/-- A small revision-5 file: two stations `ALE`, `BOR`, two records, `BOR`
absent from the second record's block. -/
def exFileV5 : List Line :=
  ["SuperMAG data file".data,
   "Revision: 5".data,
   "Selected 2 Stations: ALE,BOR".data,
   "=====================".data,
   "2001 01 01 00 00 00".data,
   "ALE -8.60 5.80 -2.60 1.10 2.20 3.30".data,
   "BOR -2.30 0.60 2.60 4.40 5.50 6.60".data,
   "2001 01 01 00 01 00".data,
   "ALE 10.70 -4.90 -5.60 7.70 8.80 9.90".data]

/-- The data section of `exFileV5` as record blocks. -/
def exBlocksV5 : List RecordBlock :=
  [⟨"2001 01 01 00 00 00".data,
    ["ALE -8.60 5.80 -2.60 1.10 2.20 3.30".data,
     "BOR -2.30 0.60 2.60 4.40 5.50 6.60".data]⟩,
   ⟨"2001 01 01 00 01 00".data,
    ["ALE 10.70 -4.90 -5.60 7.70 8.80 9.90".data]⟩]

/-- The same file without any revision declaration. -/
def exFileNoRev : List Line :=
  ["SuperMAG data file".data,
   "Selected 2 Stations: ALE,BOR".data,
   "=====================".data,
   "2001 01 01 00 00 00".data,
   "ALE -8.60 5.80 -2.60 1.10 2.20 3.30".data,
   "BOR -2.30 0.60 2.60 4.40 5.50 6.60".data]

/-- A file whose single record line has a malformed timestamp: with month
13, strptime backtracks to a one-digit month and ends its match with
unconverted data left over, so decoding fails; the line still matches the
counting pattern, so `nTime = 1`. -/
def exFileBadStamp : List Line :=
  ["SuperMAG data file".data,
   "Revision: 5".data,
   "Selected 2 Stations: ALE,BOR".data,
   "=====================".data,
   "2001 13 01 00 00 00".data,
   "ALE -8.60 5.80 -2.60 1.10 2.20 3.30".data]

/-- A file whose single record line writes hour, minute and second with one
digit each: its 11-character join is not decodable at fixed field widths,
but strptime's flexible widths accept it. -/
def exFileFlexStamp : List Line :=
  ["SuperMAG data file".data,
   "Revision: 5".data,
   "Selected 2 Stations: ALE,BOR".data,
   "=====================".data,
   "2001 01 01 0 0 0".data,
   "ALE -8.60 5.80 -2.60 1.10 2.20 3.30".data]

/-! ## Theorems -/

/-! ### List helper lemmas -/

theorem length_listSet {α : Type} : ∀ (xs : List α) (j : Nat) (v : α),
    (listSet xs j v).length = xs.length
  | [], _, _ => rfl
  | _ :: xs, 0, v => rfl
  | x :: xs, n+1, v => by simp [listSet, length_listSet xs n v]

theorem get?_listSet_self {α : Type} : ∀ (xs : List α) (j : Nat) (v : α),
    j < xs.length → (listSet xs j v).get? j = some v
  | _ :: xs, 0, v, _ => rfl
  | x :: xs, n+1, v, h => by
      simpa [listSet] using get?_listSet_self xs n v (by simpa using h)
  | [], j, v, h => by simp at h

theorem get?_listSet_ne {α : Type} : ∀ (xs : List α) (j : Nat) (v : α) (i : Nat),
    i ≠ j → (listSet xs j v).get? i = xs.get? i
  | [], _, _, _, _ => rfl
  | x :: xs, 0, v, 0, h => absurd rfl h
  | x :: xs, 0, v, i+1, _ => rfl
  | x :: xs, n+1, v, 0, _ => rfl
  | x :: xs, n+1, v, i+1, h => by
      simpa [listSet] using get?_listSet_ne xs n v i (fun hc => h (by simp [hc]))

theorem get?_replicate' {α : Type} (a : α) : ∀ (n i : Nat),
    (List.replicate n a).get? i = if i < n then some a else none
  | 0, _ => by simp
  | n+1, 0 => by simp
  | n+1, i+1 => by
      simpa [List.replicate] using get?_replicate' a n i

theorem get?_drop' {α : Type} : ∀ (l : List α) (n i : Nat),
    (l.drop n).get? i = l.get? (n + i)
  | _, 0, _ => by simp
  | [], n+1, i => by simp [List.drop]
  | x :: xs, n+1, i => by
      rw [show n + 1 + i = (n + i) + 1 from by omega]
      exact get?_drop' xs n i

theorem get?_append_left' {α : Type} : ∀ (l₁ l₂ : List α) (i : Nat),
    i < l₁.length → (l₁ ++ l₂).get? i = l₁.get? i
  | [], _, i, h => by simp at h
  | x :: xs, l₂, 0, _ => rfl
  | x :: xs, l₂, i+1, h => by
      simpa using get?_append_left' xs l₂ i (by simpa using h)

theorem get?_append_right' {α : Type} : ∀ (l₁ l₂ : List α) (i : Nat),
    (l₁ ++ l₂).get? (l₁.length + i) = l₂.get? i
  | [], _, i => by simp
  | x :: xs, l₂, i => by
      simpa [Nat.succ_add] using get?_append_right' xs l₂ i

theorem get?_zipWith'' {α β γ : Type} (f : α → β → γ) :
    ∀ (as : List α) (bs : List β) (i : Nat),
    (List.zipWith f as bs).get? i =
      match as.get? i, bs.get? i with
      | some a, some b => some (f a b)
      | _, _ => none
  | [], bs, i => by cases bs <;> simp
  | a :: as, [], i => by simp
  | a :: as, b :: bs, 0 => rfl
  | a :: as, b :: bs, i+1 => by
      simpa using get?_zipWith'' f as bs i

theorem get?_take' {α : Type} (l : List α) (n i : Nat) (h : i < n) :
    (l.take n).get? i = l.get? i := by
  rw [List.get?_eq_getElem?, List.get?_eq_getElem?, List.getElem?_take_of_lt h]

theorem get?_eq_some_vAt (v : List ℚ) (j : Nat) (h : j < v.length) :
    v.get? j = some (vAt v j) := by
  cases hq : v.get? j with
  | none => exact absurd (List.get?_eq_none.mp hq) (by omega)
  | some a =>
      have hq' : v[j]? = some a := by rwa [List.get?_eq_getElem?] at hq
      simp [vAt, List.getD_eq_getElem?_getD, hq']

/-! ### FiniteDifferenceEngine lemmas -/

theorem dbdtInterior_length (v g : List ℚ) (n : Nat) (hn : 3 ≤ n)
    (hv : v.length = n) (hg : g.length = n - 1) :
    (dbdtInterior v g).length = n - 2 := by
  simp [dbdtInterior, hv, hg]
  omega

theorem dbdtInterior_get? (v g : List ℚ) (n : Nat) (hn : 3 ≤ n)
    (hv : v.length = n) (hg : g.length = n - 1) (i : Nat) (hi : i < n - 2) :
    (dbdtInterior v g).get? i =
      some ((vAt v (i + 2) - vAt v i) / (vAt g (i + 1) + vAt g i)) := by
  unfold dbdtInterior
  rw [get?_zipWith'', get?_zipWith'', get?_zipWith'',
    get?_drop', get?_drop', get?_take' v (v.length - 2) i (by omega),
    get?_take' g (g.length - 1) i (by omega),
    get?_eq_some_vAt v (2 + i) (by omega), get?_eq_some_vAt v i (by omega),
    get?_eq_some_vAt g (1 + i) (by omega), get?_eq_some_vAt g i (by omega)]
  simp [Nat.add_comm]

theorem setSlice_interior_length (v g : List ℚ) (n : Nat) (hn : 3 ≤ n)
    (hv : v.length = n) (hg : g.length = n - 1) :
    (setSlice (npZeros (g.length + 1)) 1 (dbdtInterior v g)).length = n := by
  simp [setSlice, npZeros, dbdtInterior_length v g n hn hv hg, hg]
  omega

theorem dbdt_length (v g : List ℚ) (n : Nat) (hn : 3 ≤ n)
    (hv : v.length = n) (hg : g.length = n - 1) :
    (dbdt v g).length = n := by
  simp [dbdt, length_listSet, setSlice_interior_length v g n hn hv hg]

theorem dbdt_get?_zero (v g : List ℚ) (n : Nat) (hn : 3 ≤ n)
    (hv : v.length = n) (hg : g.length = n - 1) :
    (dbdt v g).get? 0 = some (dbdtFirst v g) := by
  unfold dbdt
  rw [get?_listSet_ne _ _ _ 0 (by omega),
    get?_listSet_self _ 0 _ (by rw [setSlice_interior_length v g n hn hv hg]; omega)]

theorem dbdt_get?_last (v g : List ℚ) (n : Nat) (hn : 3 ≤ n)
    (hv : v.length = n) (hg : g.length = n - 1) :
    (dbdt v g).get? (n - 1) = some (dbdtLast v g) := by
  unfold dbdt
  rw [show g.length + 1 - 1 = n - 1 from by omega]
  rw [get?_listSet_self _ (n-1) _
    (by rw [length_listSet, setSlice_interior_length v g n hn hv hg]; omega)]

theorem dbdt_get?_mid (v g : List ℚ) (n : Nat) (hn : 3 ≤ n)
    (hv : v.length = n) (hg : g.length = n - 1) (i : Nat)
    (h1 : 1 ≤ i) (h2 : i ≤ n - 2) :
    (dbdt v g).get? i =
      some ((vAt v (i + 1) - vAt v (i - 1)) / (vAt g i + vAt g (i - 1))) := by
  unfold dbdt
  rw [get?_listSet_ne _ _ _ i (by omega), get?_listSet_ne _ _ _ i (by omega)]
  have htk : ((npZeros (g.length + 1)).take 1).length = 1 := by
    simp [npZeros]
  have key : (setSlice (npZeros (g.length + 1)) 1 (dbdtInterior v g)).get? i
      = (dbdtInterior v g).get? (i - 1) := by
    unfold setSlice
    rw [List.append_assoc]
    conv_lhs =>
      rw [show i = ((npZeros (g.length + 1)).take 1).length + (i - 1) from by
        rw [htk]; omega]
    rw [get?_append_right',
      get?_append_left' _ _ _ (by rw [dbdtInterior_length v g n hn hv hg]; omega)]
  rw [key, dbdtInterior_get? v g n hn hv hg (i - 1) (by omega),
    show i - 1 + 2 = i + 1 from by omega, show i - 1 + 1 = i from by omega]

/-- C6: the time-derivative computation uses the central difference
`(v[i+1] - v[i-1]) / (g[i] + g[i-1])` at interior indices, the forward
three-point stencil at index 0, the backward three-point stencil at the
last index (whose denominator is the sum of the last two inter-sample
gaps, `g[n-2] + g[n-3]`), and the two components are combined pointwise
as the Euclidean norm `Real.sqrt` of `dbdtHsq`. -/
theorem C6_dbdt_stencil (vn ve g : List ℚ) (n : Nat) (hn : 3 ≤ n)
    (hvn : vn.length = n) (hve : ve.length = n) (hg : g.length = n - 1) :
    (∀ i, 1 ≤ i → i ≤ n - 2 →
      (dbdt vn g).get? i =
        some ((vAt vn (i + 1) - vAt vn (i - 1)) / (vAt g i + vAt g (i - 1)))) ∧
    (dbdt vn g).get? 0 =
      some ((-(vAt vn 2) + 4 * vAt vn 1 - 3 * vAt vn 0) / (vAt g 1 + vAt g 0)) ∧
    (dbdt vn g).get? (n - 1) =
      some ((3 * vAt vn (n - 1) - 4 * vAt vn (n - 2) + vAt vn (n - 3)) /
        (vAt g (n - 2) + vAt g (n - 3))) ∧
    (∀ i a b, (dbdt vn g).get? i = some a → (dbdt ve g).get? i = some b →
      (dbdtHsq vn ve g).get? i = some (a^2 + b^2) ∧
      Real.sqrt ((a : ℝ)^2 + (b : ℝ)^2) ^ 2 = ((a^2 + b^2 : ℚ) : ℝ)) := by
  refine ⟨fun i hi1 hi2 => dbdt_get?_mid vn g n hn hvn hg i hi1 hi2, ?_, ?_, ?_⟩
  · rw [dbdt_get?_zero vn g n hn hvn hg]
    rfl
  · rw [dbdt_get?_last vn g n hn hvn hg]
    simp only [dbdtLast, hvn, hg]
    rw [show n - 1 - 1 = n - 2 from by omega, show n - 1 - 2 = n - 3 from by omega]
  · intro i a b ha hb
    constructor
    · rw [dbdtHsq, get?_zipWith'', ha, hb]
    · rw [Real.sq_sqrt (by positivity)]
      push_cast
      ring

unseal Rat.mul Rat.add Rat.sub Rat.inv in
/-- Witness for C6: on the 3-point sequence `[0,1,0]` with unit gaps the
derivative is 0 at the midpoint and nonzero (`2` and `-2`) at the ends. -/
theorem C6_dbdt_stencil_witness :
    (3 ≤ 3 ∧ ([(0:ℚ),1,0] : List ℚ).length = 3) ∧
    (dbdt [0,1,0] [1,1]).get? 1 =
      some ((vAt [0,1,0] 2 - vAt [0,1,0] 0) / (vAt [1,1] 1 + vAt [1,1] 0)) ∧
    dbdt [0,1,0] [1,1] = [2, 0, -2] :=
  ⟨⟨by omega, by decide⟩,
   (C6_dbdt_stencil [0,1,0] [0,0,0] [1,1] 3 (by omega) (by decide) (by decide)
      (by decide)).1 1 (by omega) (by omega),
   by decide⟩

/-! ### Grid lemmas -/

theorem get?_listSet_map {α : Type} : ∀ (xs : List α) (j : Nat) (v : α),
    (listSet xs j v).get? j = (xs.get? j).map (fun _ => v)
  | [], _, _ => rfl
  | _ :: _, 0, _ => rfl
  | _ :: xs, n+1, v => get?_listSet_map xs n v

theorem get?_map' {α β : Type} (f : α → β) : ∀ (l : List α) (i : Nat),
    (l.map f).get? i = (l.get? i).map f
  | [], _ => rfl
  | _ :: _, 0 => rfl
  | _ :: xs, i+1 => get?_map' f xs i

theorem lookupG_updStation (s s' : Station) (f : StationData → StationData) :
    ∀ g : Grid, lookupG (updStation g s f) s' =
      if s' = s then (lookupG g s').map f else lookupG g s'
  | [] => by by_cases h : s' = s <;> simp [lookupG, updStation, h]
  | p :: rest => by
    have ih := lookupG_updStation s s' f rest
    by_cases hps : p.1 = s
    · simp only [updStation, if_pos hps, lookupG]
      by_cases hb : p.1 = s'
      · have hs : s' = s := by rw [← hb]; exact hps
        rw [if_pos hb, if_pos hs, if_pos hb, Option.map_some']
      · have hs : ¬ s' = s := fun hc => hb (hps.trans hc.symm)
        rw [if_neg hb, if_neg hb, if_neg hs, ih, if_neg hs]
    · simp only [updStation, if_neg hps, lookupG]
      by_cases hb : p.1 = s'
      · have hs : ¬ s' = s := fun hc => hps (hb.trans hc)
        rw [if_pos hb, if_pos hb, if_neg hs]
      · rw [if_neg hb, if_neg hb, ih]

theorem seqLen_updSetSix (g : Grid) (s s' : Station) (c : Comp) (j : Nat)
    (vals : Comp → ℚ) :
    seqLen (updStation g s (setSix j vals)) s' c = seqLen g s' c := by
  rw [seqLen, seqLen, lookupG_updStation]
  by_cases h : s' = s
  · rw [if_pos h]
    cases lookupG g s' with
    | none => rfl
    | some d =>
      rw [Option.map_some', Option.map_some', Option.map_some']
      exact congrArg some (length_listSet (d c) j (some (vals c)))
  · rw [if_neg h]

theorem gridAt_updSetSix_ne (g : Grid) (s s' : Station) (c : Comp) (i j : Nat)
    (vals : Comp → ℚ) (hij : i ≠ j) :
    gridAt (updStation g s (setSix j vals)) s' c i = gridAt g s' c i := by
  rw [gridAt, gridAt, lookupG_updStation]
  by_cases h : s' = s
  · rw [if_pos h]
    cases lookupG g s' with
    | none => rfl
    | some d =>
      rw [Option.map_some', Option.some_bind, Option.some_bind]
      show (listSet (d c) j (some (vals c))).get? i = (d c).get? i
      exact get?_listSet_ne _ _ _ _ hij
  · rw [if_neg h]

theorem gridAt_updSetSix_self (g : Grid) (s : Station) (c : Comp) (j : Nat)
    (vals : Comp → ℚ) :
    gridAt (updStation g s (setSix j vals)) s c j =
      (gridAt g s c j).map (fun _ => some (vals c)) := by
  rw [gridAt, gridAt, lookupG_updStation, if_pos rfl]
  cases lookupG g s with
  | none => rfl
  | some d =>
    rw [Option.map_some', Option.some_bind, Option.some_bind]
    show (listSet (d c) j (some (vals c))).get? j = _
    exact get?_listSet_map _ _ _

theorem gridAt_updSetSix_other (g : Grid) (s s' : Station) (c : Comp) (i : Nat)
    (j : Nat) (vals : Comp → ℚ) (hss : s' ≠ s) :
    gridAt (updStation g s (setSix j vals)) s' c i = gridAt g s' c i := by
  rw [gridAt, gridAt, lookupG_updStation, if_neg hss]

theorem lookupG_isSome_updStation (g : Grid) (s s' : Station)
    (f : StationData → StationData) :
    (lookupG (updStation g s f) s').isSome = (lookupG g s').isSome := by
  rw [lookupG_updStation]
  by_cases h : s' = s
  · rw [if_pos h, h]
    cases lookupG g s <;> rfl
  · rw [if_neg h]

theorem lookupG_initGrid (n : Nat) (s : Station) : ∀ stats : List Station,
    lookupG (initGrid stats n) s = if s ∈ stats then some (initSD n) else none
  | [] => by simp [initGrid, lookupG]
  | a :: rest => by
    have ih := lookupG_initGrid n s rest
    by_cases h : a = s
    · simp [initGrid, lookupG, h]
    · have hsa : ¬ s = a := fun hc => h hc.symm
      simp only [initGrid, lookupG, if_neg h, ih, List.mem_cons]
      by_cases hm : s ∈ rest <;> simp [hm, hsa]

theorem gridAt_initGrid (stats : List Station) (n : Nat) (s : Station) (c : Comp)
    (j : Nat) :
    gridAt (initGrid stats n) s c j =
      if s ∈ stats then (if j < n then some (some 999999) else none) else none := by
  rw [gridAt, lookupG_initGrid]
  by_cases h : s ∈ stats
  · rw [if_pos h, if_pos h, Option.some_bind]
    show (List.replicate n (some (999999 : ℚ))).get? j = _
    exact get?_replicate' _ _ _
  · rw [if_neg h, if_neg h, Option.none_bind]

theorem seqLen_initGrid (stats : List Station) (n : Nat) (s : Station) (c : Comp) :
    seqLen (initGrid stats n) s c = if s ∈ stats then some n else none := by
  rw [seqLen, lookupG_initGrid]
  by_cases h : s ∈ stats <;> simp [h, initSD]

theorem lookupG_filterGrid (s : Station) : ∀ g : Grid,
    lookupG (filterGrid g) s = (lookupG g s).map filterSD
  | [] => rfl
  | p :: rest => by
    have ih := lookupG_filterGrid s rest
    by_cases h : p.1 = s
    · simp only [filterGrid, lookupG, if_pos h, Option.map_some']
    · simp only [filterGrid, lookupG, if_neg h, ih]

theorem filterSD_nez (d : StationData) (c : Comp) (hc : c.isNez = true) :
    filterSD d c = filterComp (d c) := by
  rw [filterSD, if_pos hc]

theorem filterSD_geo (d : StationData) (c : Comp) (hc : ¬ c.isNez = true) :
    filterSD d c = d c := by
  rw [filterSD, if_neg hc]

theorem filterVal_eq (c : Comp) (v : Option ℚ) :
    filterVal c v = if c.isNez then filterEntry v else v := by
  unfold filterVal filterEntry
  by_cases hc : c.isNez
  · rfl
  · rfl

theorem gridAt_filterGrid (g : Grid) (s : Station) (c : Comp) (j : Nat) :
    gridAt (filterGrid g) s c j = (gridAt g s c j).map (filterVal c) := by
  rw [gridAt, gridAt, lookupG_filterGrid]
  cases hd : lookupG g s with
  | none => rfl
  | some d =>
    rw [Option.map_some', Option.some_bind, Option.some_bind]
    by_cases hc : c.isNez
    · rw [filterSD_nez d c hc, filterComp, get?_map']
      cases (d c).get? j with
      | none => rfl
      | some v =>
        rw [Option.map_some', Option.map_some', filterVal_eq, if_pos hc]
    · rw [filterSD_geo d c hc]
      cases (d c).get? j with
      | none => rfl
      | some v =>
        rw [Option.map_some', filterVal_eq, if_neg hc]

theorem seqLen_filterGrid (g : Grid) (s : Station) (c : Comp) :
    seqLen (filterGrid g) s c = seqLen g s c := by
  rw [seqLen, seqLen, lookupG_filterGrid]
  cases lookupG g s with
  | none => rfl
  | some d =>
    rw [Option.map_some', Option.map_some', Option.map_some']
    by_cases hc : c.isNez
    · rw [filterSD_nez d c hc, filterComp]
      exact congrArg some (List.length_map _ _)
    · rw [filterSD_geo d c hc]

theorem seqLen_isSome_iff (g : Grid) (s : Station) (c : Comp) :
    (seqLen g s c).isSome = (lookupG g s).isSome := by
  rw [seqLen]; cases lookupG g s <;> rfl

/-! ### The inner station-line loop -/

theorem statLineOK_spec (stats : List Station) (iOff : Int) (l : Line)
    (h : statLineOK stats iOff l = true) :
    l.take 3 ∈ stats ∧ timePat l = false ∧
      ∃ s0, lineKey l = some s0 ∧ s0 ∈ stats ∧
        ∃ vals, parseSixVals (splitWs l) iOff = Except.ok vals := by
  unfold statLineOK at h
  rw [Bool.and_eq_true, Bool.and_eq_true, Bool.and_eq_true] at h
  obtain ⟨⟨⟨h1, h2⟩, h3⟩, h4⟩ := h
  refine ⟨of_decide_eq_true h1, ?_, ?_⟩
  · cases htp : timePat l
    · rfl
    · rw [htp] at h2; exact absurd h2 (by simp)
  · cases hk : lineKey l with
    | none => rw [hk] at h3; exact absurd h3 (by simp)
    | some s0 =>
      rw [hk] at h3
      refine ⟨s0, rfl, of_decide_eq_true h3, ?_⟩
      cases hv : parseSixVals (splitWs l) iOff with
      | error e => rw [hv] at h4; exact absurd h4 (by simp [isErr])
      | ok v => exact ⟨v, rfl⟩

theorem sixOf_eq (l : Line) (iOff : Int) (vals : Comp → ℚ)
    (hv : parseSixVals (splitWs l) iOff = Except.ok vals) :
    sixOf l iOff = vals := by
  unfold sixOf
  rw [hv]

theorem fillStation_ok (g : Grid) (iOff : Int) (j : Nat) (parts : List Tok)
    (s0 : Tok) (hhead : parts.head? = some s0)
    (hlk : (lookupG g s0).isSome = true)
    (vals : Comp → ℚ) (hvals : parseSixVals parts iOff = Except.ok vals) :
    fillStation g iOff j parts = Except.ok (updStation g s0 (setSix j vals)) := by
  cases parts with
  | nil => exact absurd hhead (by simp)
  | cons p ps =>
    have hp : p = s0 := by simpa using hhead
    subst hp
    cases hl : lookupG g p with
    | none => rw [hl] at hlk; exact absurd hlk (by simp)
    | some d =>
      simp only [fillStation, List.head?_cons, hl, hvals]
      rfl

theorem consumeBlock_nil (stats : List Station) (iOff : Int) (j : Nat) (g : Grid) :
    consumeBlock stats iOff j [] g = Except.ok (g, []) := rfl

theorem consumeBlock_cons (stats : List Station) (iOff : Int) (j : Nat)
    (l : Line) (rest : List Line) (g : Grid) :
    consumeBlock stats iOff j (l :: rest) g =
      if l.take 3 ∈ stats then do
        let g' ← fillStation g iOff j (splitWs l)
        consumeBlock stats iOff j rest g'
      else Except.ok (g, l :: rest) := by
  rw [consumeBlock]

theorem consumeBlock_spec (stats : List Station) (iOff : Int) (j : Nat)
    (rest : List Line) (hstop : ∀ l, rest.head? = some l → l.take 3 ∉ stats) :
    ∀ (ls : List Line) (g : Grid),
    (∀ l ∈ ls, statLineOK stats iOff l = true) →
    (∀ s, s ∈ stats → (lookupG g s).isSome = true) →
    (ls.map lineKey).Nodup →
    ∃ g' : Grid,
      consumeBlock stats iOff j (ls ++ rest) g = Except.ok (g', rest) ∧
      (∀ s c, seqLen g' s c = seqLen g s c) ∧
      (∀ s, s ∈ stats → (lookupG g' s).isSome = true) ∧
      (∀ s c i, i ≠ j → gridAt g' s c i = gridAt g s c i) ∧
      (∀ s c, match ls.find? (fun l => lineKey l == some s) with
        | some l => gridAt g' s c j = (gridAt g s c j).map (fun _ => some (sixOf l iOff c))
        | none => gridAt g' s c j = gridAt g s c j)
  | [], g, _, hcov, _ => by
    refine ⟨g, ?_, fun s c => rfl, hcov, fun s c i _ => rfl, fun s c => ?_⟩
    · cases rest with
      | nil => rfl
      | cons l r =>
        have hns := hstop l rfl
        show consumeBlock stats iOff j (l :: r) g = Except.ok (g, l :: r)
        rw [consumeBlock_cons, if_neg hns]
    · simp [List.find?]
  | l :: ls, g, hls, hcov, hnd => by
    obtain ⟨hmem, _, s0, hkey, hs0stats, vals, hvals⟩ :=
      statLineOK_spec stats iOff l (hls l (by simp))
    have hfs : fillStation g iOff j (splitWs l) = Except.ok (updStation g s0 (setSix j vals)) :=
      fillStation_ok g iOff j (splitWs l) s0 hkey (hcov s0 hs0stats) vals hvals
    have hstep : consumeBlock stats iOff j ((l :: ls) ++ rest) g
        = consumeBlock stats iOff j (ls ++ rest) (updStation g s0 (setSix j vals)) := by
      show consumeBlock stats iOff j (l :: (ls ++ rest)) g = _
      rw [consumeBlock_cons, if_pos hmem, hfs]
      rfl
    have hnd' : (ls.map lineKey).Nodup := by
      rw [List.map_cons, List.nodup_cons] at hnd
      exact hnd.2
    have hnotin : lineKey l ∉ ls.map lineKey := by
      rw [List.map_cons, List.nodup_cons] at hnd
      exact hnd.1
    obtain ⟨g', hrun, hlen, hcov', hne, hblock⟩ :=
      consumeBlock_spec stats iOff j rest hstop ls (updStation g s0 (setSix j vals))
        (fun l' hl' => hls l' (by simp [hl']))
        (fun s hs => by
          rw [lookupG_isSome_updStation]
          exact hcov s hs)
        hnd'
    refine ⟨g', hstep ▸ hrun, ?_, hcov', ?_, ?_⟩
    · intro s c
      rw [hlen s c, seqLen_updSetSix]
    · intro s c i hij
      rw [hne s c i hij, gridAt_updSetSix_ne g s0 s c i j vals hij]
    · intro s c
      by_cases hss : s = s0
      · subst hss
        have hpred : (lineKey l == some s) = true := by
          rw [hkey]
          exact beq_self_eq_true _
        have hfc : List.find? (fun l' => lineKey l' == some s) (l :: ls) = some l :=
          List.find?_cons_of_pos ls hpred
        rw [hfc]
        show gridAt g' s c j = (gridAt g s c j).map (fun _ => some (sixOf l iOff c))
        have hfind : ls.find? (fun l' => lineKey l' == some s) = none := by
          rw [List.find?_eq_none]
          intro x hx hbeq
          have hxk : lineKey x = some s := by
            have : (lineKey x == some s) = true := hbeq
            exact beq_iff_eq.mp this
          exact hnotin (hkey ▸ (hxk ▸ List.mem_map_of_mem lineKey hx))
        have hb := hblock s c
        rw [hfind] at hb
        rw [hb, gridAt_updSetSix_self, sixOf_eq l iOff vals hvals]
      · have hpred : ¬ ((lineKey l == some s) = true) := by
          rw [hkey, beq_iff_eq]
          intro hc
          exact hss (Option.some_inj.mp hc).symm
        have hfc : List.find? (fun l' => lineKey l' == some s) (l :: ls)
            = List.find? (fun l' => lineKey l' == some s) ls :=
          List.find?_cons_of_neg ls hpred
        rw [hfc]
        have hb := hblock s c
        cases hfind : ls.find? (fun l' => lineKey l' == some s) with
        | none =>
          rw [hfind] at hb
          show gridAt g' s c j = gridAt g s c j
          rw [hb, gridAt_updSetSix_other g s0 s c j j vals hss]
        | some lf =>
          rw [hfind] at hb
          show gridAt g' s c j = (gridAt g s c j).map (fun _ => some (sixOf lf iOff c))
          rw [hb, gridAt_updSetSix_other g s0 s c j j vals hss]

/-! ### The outer record loop -/

theorem flattenBlocks_nil : flattenBlocks [] = [] := rfl

theorem flattenBlocks_cons (b : RecordBlock) (bs : List RecordBlock) :
    flattenBlocks (b :: bs) = b.timeLine :: (b.statLines ++ flattenBlocks bs) := by
  rw [flattenBlocks, List.map_cons, List.flatten_cons, flattenBlocks]
  rfl

theorem fillRecords_zero (stats : List Station) (iOff : Int) (j : Nat)
    (lines : List Line) (g : Grid) (acc : List DT) :
    fillRecords stats iOff j 0 lines g acc = Except.ok (acc.reverse, g) := by
  rw [fillRecords]

theorem fillRecords_succ_cons (stats : List Station) (iOff : Int) (j fuel : Nat)
    (l : Line) (rest : List Line) (g : Grid) (acc : List DT) :
    fillRecords stats iOff j (fuel+1) (l :: rest) g acc =
      (match parseStampJoined (splitWs l) with
      | none => Except.error Err.valueError
      | some t => do
        let (g', rest') ← consumeBlock stats iOff j rest g
        fillRecords stats iOff (j+1) fuel rest' g' (t :: acc)) := by
  rw [fillRecords]

theorem blockOK_spec (stats : List Station) (iOff : Int) (b : RecordBlock)
    (h : blockOK stats iOff b = true) :
    (∃ t, parseStampJoined (splitWs b.timeLine) = some t) ∧
      timePat b.timeLine = true ∧
      b.timeLine.take 3 ∉ stats ∧
      (∀ l ∈ b.statLines, statLineOK stats iOff l = true) ∧
      (b.statLines.map lineKey).Nodup := by
  unfold blockOK at h
  rw [Bool.and_eq_true, Bool.and_eq_true, Bool.and_eq_true, Bool.and_eq_true] at h
  obtain ⟨⟨⟨⟨h1, h2⟩, h3⟩, h4⟩, h5⟩ := h
  refine ⟨?_, h2, ?_, ?_, of_decide_eq_true h5⟩
  · cases hp : parseStampJoined (splitWs b.timeLine) with
    | none => rw [hp] at h1; exact absurd h1 (by simp)
    | some t => exact ⟨t, rfl⟩
  · intro hc
    rw [decide_eq_true hc] at h3
    exact absurd h3 (by simp)
  · intro l hl
    exact List.all_eq_true.mp h4 l hl

theorem stampOf_eq (b : RecordBlock) (t : DT)
    (ht : parseStampJoined (splitWs b.timeLine) = some t) : stampOf b = t := by
  rw [stampOf, ht]
  rfl

theorem blocksOK_cons (stats : List Station) (iOff : Int) (b : RecordBlock)
    (bs : List RecordBlock) (h : blocksOK stats iOff (b :: bs) = true) :
    blockOK stats iOff b = true ∧ blocksOK stats iOff bs = true := by
  rw [blocksOK, List.all_cons, Bool.and_eq_true] at h
  exact ⟨h.1, h.2⟩

theorem fillRecords_blocks (stats : List Station) (iOff : Int) (tail : List Line)
    (fuel' : Nat) (htail : ∀ l, tail.head? = some l → l.take 3 ∉ stats) :
    ∀ (bs : List RecordBlock) (j0 : Nat) (g : Grid) (acc : List DT),
    blocksOK stats iOff bs = true →
    (∀ s, s ∈ stats → (lookupG g s).isSome = true) →
    ∃ g' : Grid,
      fillRecords stats iOff j0 (bs.length + fuel') (flattenBlocks bs ++ tail) g acc
        = fillRecords stats iOff (j0 + bs.length) fuel' tail g'
            ((bs.map stampOf).reverse ++ acc) ∧
      (∀ s c, seqLen g' s c = seqLen g s c) ∧
      (∀ s, s ∈ stats → (lookupG g' s).isSome = true) ∧
      (∀ s c i, i < j0 ∨ j0 + bs.length ≤ i → gridAt g' s c i = gridAt g s c i) ∧
      (∀ k, k < bs.length → ∀ s c,
        match (blockGet bs k).statLines.find? (fun l => lineKey l == some s) with
        | some l => gridAt g' s c (j0 + k)
            = (gridAt g s c (j0 + k)).map (fun _ => some (sixOf l iOff c))
        | none => gridAt g' s c (j0 + k) = gridAt g s c (j0 + k))
  | [], j0, g, acc, _, hcov => by
    refine ⟨g, ?_, fun s c => rfl, hcov, fun s c i _ => rfl,
      fun k hk => absurd hk (by simp)⟩
    simp [flattenBlocks_nil]
  | b :: bs, j0, g, acc, hwf, hcov => by
    obtain ⟨hwb, hwbs⟩ := blocksOK_cons stats iOff b bs hwf
    obtain ⟨⟨t, ht⟩, htp, hnotstat, hlsOK, hnd⟩ := blockOK_spec stats iOff b hwb
    have hstop : ∀ l, (flattenBlocks bs ++ tail).head? = some l → l.take 3 ∉ stats := by
      cases bs with
      | nil => simpa [flattenBlocks_nil] using htail
      | cons b' bs' =>
        intro l hl
        rw [flattenBlocks_cons] at hl
        simp only [List.cons_append, List.head?_cons, Option.some_inj] at hl
        obtain ⟨hwb', -⟩ := blocksOK_cons stats iOff b' bs' hwbs
        obtain ⟨-, -, hns, -, -⟩ := blockOK_spec stats iOff b' hwb'
        rw [hl] at hns
        exact hns
    obtain ⟨g1, hrun1, hlen1, hcov1, hne1, hblk1⟩ :=
      consumeBlock_spec stats iOff j0 (flattenBlocks bs ++ tail) hstop b.statLines g
        hlsOK hcov hnd
    obtain ⟨g', hrun2, hlen2, hcov2, hne2, hblk2⟩ :=
      fillRecords_blocks stats iOff tail fuel' htail bs (j0+1) g1 (t :: acc) hwbs hcov1
    refine ⟨g', ?_, ?_, hcov2, ?_, ?_⟩
    · have e1 : flattenBlocks (b :: bs) ++ tail
          = b.timeLine :: (b.statLines ++ (flattenBlocks bs ++ tail)) := by
        rw [flattenBlocks_cons, List.cons_append, List.append_assoc]
      have e2 : (b :: bs).length + fuel' = (bs.length + fuel') + 1 := by
        rw [List.length_cons]; omega
      rw [e1, e2, fillRecords_succ_cons, ht]
      show (do
        let gr ← consumeBlock stats iOff j0 (b.statLines ++ (flattenBlocks bs ++ tail)) g
        fillRecords stats iOff (j0+1) (bs.length + fuel') gr.2 gr.1 (t :: acc)) = _
      rw [hrun1]
      show fillRecords stats iOff (j0+1) (bs.length + fuel')
          (flattenBlocks bs ++ tail) g1 (t :: acc) = _
      have e3 : (j0 + 1) + bs.length = j0 + (b :: bs).length := by
        rw [List.length_cons]; omega
      have e4 : (bs.map stampOf).reverse ++ (t :: acc)
          = ((b :: bs).map stampOf).reverse ++ acc := by
        rw [List.map_cons, List.reverse_cons, List.append_assoc,
          stampOf_eq b t ht]
        rfl
      rw [← e3, ← e4]
      exact hrun2
    · intro s c
      rw [hlen2 s c, hlen1 s c]
    · intro s c i hi
      rw [List.length_cons] at hi
      have hij : i ≠ j0 := by omega
      have hi' : i < j0 + 1 ∨ (j0 + 1) + bs.length ≤ i := by omega
      rw [hne2 s c i hi', hne1 s c i hij]
    · intro k hk s c
      cases k with
      | zero =>
        have hgj : gridAt g' s c (j0 + 0) = gridAt g1 s c j0 := by
          rw [show j0 + 0 = j0 from rfl]
          exact hne2 s c j0 (Or.inl (Nat.lt_succ_self j0))
        have hb1 := hblk1 s c
        show match (blockGet (b :: bs) 0).statLines.find? (fun l => lineKey l == some s) with
          | some l => gridAt g' s c (j0 + 0)
              = (gridAt g s c (j0 + 0)).map (fun _ => some (sixOf l iOff c))
          | none => gridAt g' s c (j0 + 0) = gridAt g s c (j0 + 0)
        have hbg : blockGet (b :: bs) 0 = b := rfl
        rw [hbg]
        cases hf : b.statLines.find? (fun l => lineKey l == some s) with
        | some l =>
          rw [hf] at hb1
          show gridAt g' s c (j0 + 0) = (gridAt g s c (j0 + 0)).map (fun _ => some (sixOf l iOff c))
          rw [show j0 + 0 = j0 from rfl] at hgj ⊢
          rw [hgj, hb1]
        | none =>
          rw [hf] at hb1
          show gridAt g' s c (j0 + 0) = gridAt g s c (j0 + 0)
          rw [show j0 + 0 = j0 from rfl] at hgj ⊢
          rw [hgj, hb1]
      | succ k' =>
        have hk' : k' < bs.length := by
          rw [List.length_cons] at hk; omega
        have hb2 := hblk2 k' hk' s c
        have hbg : blockGet (b :: bs) (k' + 1) = blockGet bs k' := rfl
        have hidx : (j0 + 1) + k' = j0 + (k' + 1) := by omega
        have hij : j0 + (k' + 1) ≠ j0 := by omega
        rw [hbg]
        cases hf : (blockGet bs k').statLines.find? (fun l => lineKey l == some s) with
        | some l =>
          rw [hf] at hb2
          show gridAt g' s c (j0 + (k' + 1))
              = (gridAt g s c (j0 + (k' + 1))).map (fun _ => some (sixOf l iOff c))
          rw [hidx] at hb2
          rw [hb2, hne1 s c (j0 + (k' + 1)) hij]
        | none =>
          rw [hf] at hb2
          show gridAt g' s c (j0 + (k' + 1)) = gridAt g s c (j0 + (k' + 1))
          rw [hidx] at hb2
          rw [hb2, hne1 s c (j0 + (k' + 1)) hij]

/-! ### Running `readSupermag` under structural hypotheses -/

theorem bindOk {α β : Type} (a : α) (f : α → Except Err β) :
    (Except.ok a : Except Err α) >>= f = f a := rfl

theorem bindErr {α β : Type} (e : Err) (f : α → Except Err β) :
    (Except.error e : Except Err α) >>= f = Except.error e := rfl

/-- Evaluation of `readSupermag` once the header scan results are known and
the fill pass succeeds. -/
theorem readSupermag_run_ok
    (fileLines : List Line) (vers : Rev) (nSkip1 : Nat) (selLine : Line)
    (rest1 : List Line) (iOff : Int) (headLine : Line) (rest2 : List Line)
    (lastTok : Tok) (nSkip : Nat) (dataLines : List Line)
    (time : List DT) (rawGrid : Grid)
    (hsel : scanSelected fileLines = Except.ok (vers, nSkip1, selLine, rest1))
    (hvm : varmapLookup vers = some iOff)
    (hhead : headOf selLine rest1 = (headLine, rest2))
    (hlast : (splitWs headLine).getLast? = some lastTok)
    (hsep : scanSepAux selLine rest2 nSkip1 = Except.ok (nSkip, dataLines))
    (hfill : fillRecords (splitOnChar ',' lastTok) iOff 0 (countTime dataLines)
        (fileLines.drop (nSkip + (if vers = Rev.known 2 then 1 else 0)))
        (initGrid (splitOnChar ',' lastTok) (countTime dataLines)) []
        = Except.ok (time, rawGrid)) :
    readSupermag fileLines = Except.ok
      { vers := vers, warned := decide (vers = Rev.unrecognized), iOff := iOff,
        stations := splitOnChar ',' lastTok,
        nstats := (splitOnChar ',' lastTok).length, nSkip := nSkip,
        nTime := countTime dataLines, time := time, rawGrid := rawGrid,
        grid := filterGrid rawGrid } := by
  simp only [readSupermag, hsel, bindOk, hvm, hhead, hlast, hsep, hfill]
  rfl

/-- Evaluation of `readSupermag` when the fill pass raises. -/
theorem readSupermag_run_err
    (fileLines : List Line) (vers : Rev) (nSkip1 : Nat) (selLine : Line)
    (rest1 : List Line) (iOff : Int) (headLine : Line) (rest2 : List Line)
    (lastTok : Tok) (nSkip : Nat) (dataLines : List Line) (e : Err)
    (hsel : scanSelected fileLines = Except.ok (vers, nSkip1, selLine, rest1))
    (hvm : varmapLookup vers = some iOff)
    (hhead : headOf selLine rest1 = (headLine, rest2))
    (hlast : (splitWs headLine).getLast? = some lastTok)
    (hsep : scanSepAux selLine rest2 nSkip1 = Except.ok (nSkip, dataLines))
    (hfill : fillRecords (splitOnChar ',' lastTok) iOff 0 (countTime dataLines)
        (fileLines.drop (nSkip + (if vers = Rev.known 2 then 1 else 0)))
        (initGrid (splitOnChar ',' lastTok) (countTime dataLines)) []
        = Except.error e) :
    readSupermag fileLines = Except.error e := by
  simp only [readSupermag, hsel, bindOk, hvm, hhead, hlast, hsep, hfill]
  rfl

theorem readSupermag_err_sel (fileLines : List Line) (e : Err)
    (hsel : scanSelected fileLines = Except.error e) :
    readSupermag fileLines = Except.error e := by
  simp only [readSupermag, hsel, bindErr]

theorem readSupermag_err_vm (fileLines : List Line) (vers : Rev) (nSkip1 : Nat)
    (selLine : Line) (rest1 : List Line)
    (hsel : scanSelected fileLines = Except.ok (vers, nSkip1, selLine, rest1))
    (hvm : varmapLookup vers = none) :
    readSupermag fileLines = Except.error Err.keyError := by
  simp only [readSupermag, hsel, bindOk, hvm, bindErr]

theorem readSupermag_err_last (fileLines : List Line) (vers : Rev) (nSkip1 : Nat)
    (selLine : Line) (rest1 : List Line) (iOff : Int) (headLine : Line)
    (rest2 : List Line)
    (hsel : scanSelected fileLines = Except.ok (vers, nSkip1, selLine, rest1))
    (hvm : varmapLookup vers = some iOff)
    (hhead : headOf selLine rest1 = (headLine, rest2))
    (hlast : (splitWs headLine).getLast? = none) :
    readSupermag fileLines = Except.error Err.indexError := by
  simp only [readSupermag, hsel, bindOk, hvm, hhead, hlast, bindErr]

theorem readSupermag_err_sep (fileLines : List Line) (vers : Rev) (nSkip1 : Nat)
    (selLine : Line) (rest1 : List Line) (iOff : Int) (headLine : Line)
    (rest2 : List Line) (lastTok : Tok) (e : Err)
    (hsel : scanSelected fileLines = Except.ok (vers, nSkip1, selLine, rest1))
    (hvm : varmapLookup vers = some iOff)
    (hhead : headOf selLine rest1 = (headLine, rest2))
    (hlast : (splitWs headLine).getLast? = some lastTok)
    (hsep : scanSepAux selLine rest2 nSkip1 = Except.error e) :
    readSupermag fileLines = Except.error e := by
  simp only [readSupermag, hsel, bindOk, hvm, hhead, hlast, hsep, bindErr]

/-- Every successful construction ends with the bad-data filter: the final
grid is the filtered raw grid, and the remaining metadata fields are
consistent. -/
theorem readSupermag_ok_inv (fileLines : List Line) (r : SMResult)
    (h : readSupermag fileLines = Except.ok r) :
    r.grid = filterGrid r.rawGrid ∧ r.nstats = r.stations.length ∧
      r.warned = decide (r.vers = Rev.unrecognized) ∧
      varmapLookup r.vers = some r.iOff ∧
      ∃ nSkip1 selLine rest1,
        scanSelected fileLines = Except.ok (r.vers, nSkip1, selLine, rest1) := by
  cases h1 : scanSelected fileLines with
  | error e => rw [readSupermag_err_sel fileLines e h1] at h; cases h
  | ok x =>
    obtain ⟨vers, nSkip1, selLine, rest1⟩ := x
    cases h2 : varmapLookup vers with
    | none =>
      rw [readSupermag_err_vm fileLines vers nSkip1 selLine rest1 h1 h2] at h
      cases h
    | some iOff =>
      rcases h3 : headOf selLine rest1 with ⟨headLine, rest2⟩
      cases h4 : (splitWs headLine).getLast? with
      | none =>
        rw [readSupermag_err_last fileLines vers nSkip1 selLine rest1 iOff
          headLine rest2 h1 h2 h3 h4] at h
        cases h
      | some lastTok =>
        cases h5 : scanSepAux selLine rest2 nSkip1 with
        | error e =>
          rw [readSupermag_err_sep fileLines vers nSkip1 selLine rest1 iOff
            headLine rest2 lastTok e h1 h2 h3 h4 h5] at h
          cases h
        | ok p =>
          obtain ⟨nSkip, dataLines⟩ := p
          cases h6 : fillRecords (splitOnChar ',' lastTok) iOff 0 (countTime dataLines)
              (fileLines.drop (nSkip + (if vers = Rev.known 2 then 1 else 0)))
              (initGrid (splitOnChar ',' lastTok) (countTime dataLines)) [] with
          | error e =>
            rw [readSupermag_run_err fileLines vers nSkip1 selLine rest1 iOff
              headLine rest2 lastTok nSkip dataLines e h1 h2 h3 h4 h5 h6] at h
            cases h
          | ok tg =>
            obtain ⟨time, rawGrid⟩ := tg
            rw [readSupermag_run_ok fileLines vers nSkip1 selLine rest1 iOff
              headLine rest2 lastTok nSkip dataLines time rawGrid
              h1 h2 h3 h4 h5 h6] at h
            cases h
            exact ⟨rfl, rfl, rfl, h2, nSkip1, selLine, rest1, rfl⟩

/-! ### Supporting lemmas for the claim theorems -/

theorem blockGet_mem : ∀ (bs : List RecordBlock) (k : Nat), k < bs.length →
    blockGet bs k ∈ bs
  | [], k, h => by simp at h
  | b :: bs, 0, _ => by
    show (b :: bs).getD 0 ⟨[], []⟩ ∈ b :: bs
    simp
  | b :: bs, k+1, h => by
    have ih := blockGet_mem bs k (by rw [List.length_cons] at h; omega)
    show (b :: bs).getD (k+1) ⟨[], []⟩ ∈ b :: bs
    rw [List.getD_cons_succ]
    exact List.mem_cons_of_mem b ih

theorem blocksOK_get (stats : List Station) (iOff : Int) (bs : List RecordBlock)
    (hwf : blocksOK stats iOff bs = true) (k : Nat) (hk : k < bs.length) :
    blockOK stats iOff (blockGet bs k) = true := by
  rw [blocksOK] at hwf
  exact List.all_eq_true.mp hwf (blockGet bs k) (blockGet_mem bs k hk)

theorem get?_blockGet : ∀ (bs : List RecordBlock) (k : Nat), k < bs.length →
    bs.get? k = some (blockGet bs k)
  | [], k, h => by simp at h
  | b :: bs, 0, _ => rfl
  | b :: bs, k+1, h => by
    have ih := get?_blockGet bs k (by rw [List.length_cons] at h; omega)
    show bs.get? k = some ((b :: bs).getD (k+1) ⟨[], []⟩)
    rw [List.getD_cons_succ]
    exact ih

theorem find?_key_unique (s : Station) :
    ∀ (ls : List Line), (ls.map lineKey).Nodup →
    ∀ l, l ∈ ls → lineKey l = some s →
    ls.find? (fun x => lineKey x == some s) = some l
  | [], _, l, hl, _ => absurd hl (by simp)
  | a :: ls, hnd, l, hl, hkey => by
    rw [List.map_cons, List.nodup_cons] at hnd
    rcases List.mem_cons.mp hl with rfl | hmem
    · have hpred : (lineKey l == some s) = true := by
        rw [hkey]; exact beq_self_eq_true _
      exact List.find?_cons_of_pos ls hpred
    · have hne : lineKey a ≠ some s := by
        intro hc
        exact hnd.1 (hc ▸ hkey ▸ List.mem_map_of_mem lineKey hmem)
      have hpred : ¬ ((lineKey a == some s) = true) := by
        rw [beq_iff_eq]; exact hne
      rw [List.find?_cons_of_neg ls hpred]
      exact find?_key_unique s ls hnd.2 l hmem hkey

theorem find?_key_none (s : Station) (ls : List Line)
    (h : ∀ l ∈ ls, lineKey l ≠ some s) :
    ls.find? (fun x => lineKey x == some s) = none := by
  rw [List.find?_eq_none]
  intro x hx hbeq
  exact h x hx (beq_iff_eq.mp hbeq)

theorem countTime_eq_filter : ∀ lines : List Line,
    countTime lines = (lines.filter timePat).length
  | [] => rfl
  | l :: lines => by
    have ih := countTime_eq_filter lines
    rw [countTime, List.map_cons, List.sum_cons, List.filter_cons]
    cases htp : timePat l
    · rw [if_neg (by simp), countTime] at *
      simpa using ih
    · rw [if_pos rfl]
      rw [countTime] at ih
      simp [htp, ih]
      omega

theorem initGrid_cov (stats : List Station) (n : Nat) :
    ∀ s, s ∈ stats → (lookupG (initGrid stats n) s).isSome = true := by
  intro s hs
  rw [lookupG_initGrid, if_pos hs]
  rfl

/-- A successful end-to-end run over a well-formed block structure:
`readSupermag` succeeds, the time list is the list of parsed block
timestamps, and the raw grid is characterized block by block. -/
theorem readSupermag_blocks_ok
    (fileLines : List Line) (vers : Rev) (nSkip1 : Nat) (selLine : Line)
    (rest1 : List Line) (iOff : Int) (headLine : Line) (rest2 : List Line)
    (lastTok : Tok) (nSkip : Nat) (dataLines : List Line)
    (stats : List Station) (bs : List RecordBlock)
    (hsel : scanSelected fileLines = Except.ok (vers, nSkip1, selLine, rest1))
    (hvm : varmapLookup vers = some iOff)
    (hhead : headOf selLine rest1 = (headLine, rest2))
    (hlast : (splitWs headLine).getLast? = some lastTok)
    (hsep : scanSepAux selLine rest2 nSkip1 = Except.ok (nSkip, dataLines))
    (hstats : splitOnChar ',' lastTok = stats)
    (hnt : countTime dataLines = bs.length)
    (hdata : fileLines.drop (nSkip + (if vers = Rev.known 2 then 1 else 0))
      = flattenBlocks bs)
    (hwf : blocksOK stats iOff bs = true) :
    ∃ g' : Grid,
      readSupermag fileLines = Except.ok
        { vers := vers, warned := decide (vers = Rev.unrecognized), iOff := iOff,
          stations := stats, nstats := stats.length, nSkip := nSkip,
          nTime := countTime dataLines, time := bs.map stampOf, rawGrid := g',
          grid := filterGrid g' } ∧
      (∀ s c, seqLen g' s c = seqLen (initGrid stats (countTime dataLines)) s c) ∧
      (∀ k, k < bs.length → ∀ s c,
        match (blockGet bs k).statLines.find? (fun l => lineKey l == some s) with
        | some l => gridAt g' s c k
            = (gridAt (initGrid stats (countTime dataLines)) s c k).map
                (fun _ => some (sixOf l iOff c))
        | none => gridAt g' s c k
            = gridAt (initGrid stats (countTime dataLines)) s c k) := by
  subst hstats
  have htail : ∀ l, ([] : List Line).head? = some l → l.take 3 ∉ splitOnChar ',' lastTok :=
    fun l h => absurd h (by simp)
  obtain ⟨g', hrun, hlen, _, _, hblk⟩ :=
    fillRecords_blocks (splitOnChar ',' lastTok) iOff [] 0 htail bs 0
      (initGrid (splitOnChar ',' lastTok) (countTime dataLines)) [] hwf
      (initGrid_cov (splitOnChar ',' lastTok) (countTime dataLines))
  rw [fillRecords_zero] at hrun
  rw [show (((bs.map stampOf).reverse ++ ([] : List DT))).reverse = bs.map stampOf
    from by simp] at hrun
  rw [List.append_nil, ← hdata] at hrun
  rw [show bs.length + 0 = countTime dataLines from by omega] at hrun
  refine ⟨g', ?_, hlen, ?_⟩
  · exact readSupermag_run_ok fileLines vers nSkip1 selLine rest1 iOff headLine
      rest2 lastTok nSkip dataLines (bs.map stampOf) g' hsel hvm hhead hlast hsep hrun
  · intro k hk s c
    have hb := hblk k hk s c
    rw [Nat.zero_add] at hb
    exact hb

/-- C2: a station listed in the header but absent from record `j`'s block
keeps the sentinel `999999` at index `j` before the bad-data filter, and the
missing marker (for the filtered `bx`, `by`, `bz`) or the sentinel (for the
unfiltered `_geo` components) after it; a station that does report gets
exactly the six values parsed from its own value line at the revision's
offsets; and every component array of every listed station has length
`nTime` — the grid stays dense and rectangular. -/
theorem C2_absent_station_keeps_sentinel
    (fileLines : List Line) (vers : Rev) (nSkip1 : Nat) (selLine : Line)
    (rest1 : List Line) (iOff : Int) (headLine : Line) (rest2 : List Line)
    (lastTok : Tok) (nSkip : Nat) (dataLines : List Line)
    (stats : List Station) (bs : List RecordBlock)
    (hsel : scanSelected fileLines = Except.ok (vers, nSkip1, selLine, rest1))
    (hvm : varmapLookup vers = some iOff)
    (hhead : headOf selLine rest1 = (headLine, rest2))
    (hlast : (splitWs headLine).getLast? = some lastTok)
    (hsep : scanSepAux selLine rest2 nSkip1 = Except.ok (nSkip, dataLines))
    (hstats : splitOnChar ',' lastTok = stats)
    (hnt : countTime dataLines = bs.length)
    (hdata : fileLines.drop (nSkip + (if vers = Rev.known 2 then 1 else 0))
      = flattenBlocks bs)
    (hwf : blocksOK stats iOff bs = true)
    (j : Nat) (hj : j < bs.length) (s : Station) (hs : s ∈ stats) (c : Comp) :
    ((∀ l ∈ (blockGet bs j).statLines, lineKey l ≠ some s) →
      okProj (fun r => gridAt r.rawGrid s c j) (readSupermag fileLines)
        = some (some (some 999999)) ∧
      (c.isNez = true →
        okProj (fun r => gridAt r.grid s c j) (readSupermag fileLines)
          = some (some none)) ∧
      (c.isNez = false →
        okProj (fun r => gridAt r.grid s c j) (readSupermag fileLines)
          = some (some (some 999999)))) ∧
    (∀ l, l ∈ (blockGet bs j).statLines → lineKey l = some s →
      okProj (fun r => gridAt r.rawGrid s c j) (readSupermag fileLines)
        = some (some (some (sixOf l iOff c)))) ∧
    okProj (fun r => seqLen r.rawGrid s c) (readSupermag fileLines)
      = some (some bs.length) ∧
    okProj (fun r => seqLen r.grid s c) (readSupermag fileLines)
      = some (some bs.length) := by
  obtain ⟨g', hread, hlen, hblk⟩ :=
    readSupermag_blocks_ok fileLines vers nSkip1 selLine rest1 iOff headLine
      rest2 lastTok nSkip dataLines stats bs hsel hvm hhead hlast hsep hstats
      hnt hdata hwf
  have hjn : j < countTime dataLines := by omega
  have hinit : gridAt (initGrid stats (countTime dataLines)) s c j
      = some (some 999999) := by
    rw [gridAt_initGrid, if_pos hs, if_pos hjn]
  have hslen : seqLen (initGrid stats (countTime dataLines)) s c
      = some (countTime dataLines) := by
    rw [seqLen_initGrid, if_pos hs]
  refine ⟨?_, ?_, ?_, ?_⟩
  · intro hnol
    have hb := hblk j hj s c
    rw [find?_key_none s _ hnol] at hb
    refine ⟨?_, ?_, ?_⟩
    · rw [hread]
      show some (gridAt g' s c j) = _
      rw [hb, hinit]
    · intro hcnez
      rw [hread]
      show some (gridAt (filterGrid g') s c j) = _
      rw [gridAt_filterGrid, hb, hinit, Option.map_some', filterVal_eq,
        if_pos hcnez]
      simp only [filterEntry]
      rw [if_pos (le_refl _)]
    · intro hcgeo
      rw [hread]
      show some (gridAt (filterGrid g') s c j) = _
      rw [gridAt_filterGrid, hb, hinit, Option.map_some', filterVal_eq,
        if_neg (by rw [hcgeo]; exact Bool.false_ne_true)]
  · intro l hlmem hlkey
    have hnd : ((blockGet bs j).statLines.map lineKey).Nodup :=
      (blockOK_spec stats iOff _ (blocksOK_get stats iOff bs hwf j hj)).2.2.2.2
    have hb := hblk j hj s c
    rw [find?_key_unique s _ hnd l hlmem hlkey] at hb
    rw [hread]
    show some (gridAt g' s c j) = _
    rw [hb, hinit, Option.map_some']
  · rw [hread]
    show some (seqLen g' s c) = _
    rw [hlen s c, hslen, hnt]
  · rw [hread]
    show some (seqLen (filterGrid g') s c) = _
    rw [seqLen_filterGrid, hlen s c, hslen, hnt]

/-- Witness for C2 at the example file: station `BOR` is absent from the
second record's block, keeps the raw sentinel there, and shows the missing
marker after filtering. -/
theorem C2_absent_station_keeps_sentinel_witness :
    (("BOR".data : Station) ∈ (["ALE".data, "BOR".data] : List Station)
      ∧ 1 < exBlocksV5.length) ∧
    okProj (fun r => gridAt r.rawGrid "BOR".data Comp.cbx 1) (readSupermag exFileV5)
      = some (some (some 999999)) ∧
    okProj (fun r => gridAt r.grid "BOR".data Comp.cbx 1) (readSupermag exFileV5)
      = some (some none) := by
  have h := C2_absent_station_keeps_sentinel exFileV5 (Rev.known 5) 3
    ("Selected 2 Stations: ALE,BOR".data) (exFileV5.drop 3) (-6)
    ("Selected 2 Stations: ALE,BOR".data) (exFileV5.drop 3) ("ALE,BOR".data) 4
    (exFileV5.drop 4) ["ALE".data, "BOR".data] exBlocksV5
    (by decide) (by decide) (by decide) (by decide) (by decide) (by decide)
    (by decide) (by decide) (by decide) 1 (by decide) "BOR".data (by decide)
    Comp.cbx
  obtain ⟨ha, -, -, -⟩ := h
  have hx := ha (by decide)
  exact ⟨⟨by decide, by decide⟩, hx.1, hx.2.1 (by decide)⟩

theorem head?_map'' {α β : Type} (f : α → β) : ∀ l : List α,
    (l.map f).head? = l.head?.map f
  | [] => rfl
  | _ :: _ => rfl

theorem getLast?_map'' {α β : Type} (f : α → β) : ∀ l : List α,
    (l.map f).getLast? = l.getLast?.map f
  | [] => rfl
  | [_] => rfl
  | a :: b :: l => by
    rw [List.map_cons, List.map_cons, List.getLast?_cons_cons,
      List.getLast?_cons_cons, ← List.map_cons]
    exact getLast?_map'' f (b :: l)

/-- C3: the stored time sequence is exactly the per-record decoding of each
record line's first six whitespace tokens, concatenated and parsed with the
fixed-width `YYYYMMDDHHMMSS` convention; in particular the first and last
entries come from the file's first and last data blocks. -/
theorem C3_timestamps
    (fileLines : List Line) (vers : Rev) (nSkip1 : Nat) (selLine : Line)
    (rest1 : List Line) (iOff : Int) (headLine : Line) (rest2 : List Line)
    (lastTok : Tok) (nSkip : Nat) (dataLines : List Line)
    (stats : List Station) (bs : List RecordBlock)
    (hsel : scanSelected fileLines = Except.ok (vers, nSkip1, selLine, rest1))
    (hvm : varmapLookup vers = some iOff)
    (hhead : headOf selLine rest1 = (headLine, rest2))
    (hlast : (splitWs headLine).getLast? = some lastTok)
    (hsep : scanSepAux selLine rest2 nSkip1 = Except.ok (nSkip, dataLines))
    (hstats : splitOnChar ',' lastTok = stats)
    (hnt : countTime dataLines = bs.length)
    (hdata : fileLines.drop (nSkip + (if vers = Rev.known 2 then 1 else 0))
      = flattenBlocks bs)
    (hwf : blocksOK stats iOff bs = true) :
    okProj (fun r => r.time) (readSupermag fileLines) = some (bs.map stampOf) ∧
    (∀ k, k < bs.length →
      (bs.map stampOf).get? k = some (stampOf (blockGet bs k)) ∧
      parseStampJoined (splitWs (blockGet bs k).timeLine)
        = some (stampOf (blockGet bs k))) ∧
    (bs.map stampOf).head? = bs.head?.map stampOf ∧
    (bs.map stampOf).getLast? = bs.getLast?.map stampOf := by
  obtain ⟨g', hread, -, -⟩ :=
    readSupermag_blocks_ok fileLines vers nSkip1 selLine rest1 iOff headLine
      rest2 lastTok nSkip dataLines stats bs hsel hvm hhead hlast hsep hstats
      hnt hdata hwf
  refine ⟨by rw [hread]; rfl, ?_, head?_map'' stampOf bs, getLast?_map'' stampOf bs⟩
  intro k hk
  constructor
  · rw [get?_map', get?_blockGet bs k hk, Option.map_some']
  · obtain ⟨⟨t, ht⟩, -, -, -, -⟩ :=
      blockOK_spec stats iOff _ (blocksOK_get stats iOff bs hwf k hk)
    rw [ht, stampOf_eq _ t ht]

/-- Witness for C3 at the example file. -/
theorem C3_timestamps_witness :
    okProj (fun r => r.time) (readSupermag exFileV5)
      = some (exBlocksV5.map stampOf) ∧
    exBlocksV5.map stampOf
      = [DT.mk 2001 1 1 0 0 0, DT.mk 2001 1 1 0 1 0] := by
  have h := C3_timestamps exFileV5 (Rev.known 5) 3
    ("Selected 2 Stations: ALE,BOR".data) (exFileV5.drop 3) (-6)
    ("Selected 2 Stations: ALE,BOR".data) (exFileV5.drop 3) ("ALE,BOR".data) 4
    (exFileV5.drop 4) ["ALE".data, "BOR".data] exBlocksV5
    (by decide) (by decide) (by decide) (by decide) (by decide) (by decide)
    (by decide) (by decide) (by decide)
  exact ⟨h.1, by decide⟩

/-! ### The counting pattern: regex embedding versus declarative reading -/

theorem obindOk {α β : Type} (a : α) (f : α → Option β) :
    ((some a : Option α) >>= f) = f a := rfl

theorem obindNone {α β : Type} (f : α → Option β) :
    ((none : Option α) >>= f) = none := rfl

theorem digit_not_ws (c : Char) (h : isDigitChar c = true) : isWsChar c = false := by
  cases hw : isWsChar c
  · rfl
  · exfalso
    unfold isWsChar at hw
    simp only [Bool.or_eq_true, decide_eq_true_eq] at hw
    rcases hw with ((((h1 | h1) | h1) | h1) | h1) | h1 <;>
      (rw [h1] at h; exact absurd h (by decide))

theorem eatDigits_some : ∀ (k : Nat) (l r : List Char), eatDigits k l = some r →
    ∃ d, l = d ++ r ∧ d.length = k ∧ d.all isDigitChar = true
  | 0, l, r, h => by
    refine ⟨[], ?_, rfl, rfl⟩
    have : l = r := by injection h
    rw [this]
    rfl
  | k+1, [], r, h => by cases h
  | k+1, c :: l, r, h => by
    unfold eatDigits at h
    by_cases hd : isDigitChar c = true
    · rw [if_pos hd] at h
      obtain ⟨d, hsplit, hlen, hall⟩ := eatDigits_some k l r h
      refine ⟨c :: d, by rw [List.cons_append, hsplit], by rw [List.length_cons, hlen], ?_⟩
      rw [List.all_cons, hd, hall]
      rfl
    · rw [if_neg hd] at h
      cases h

theorem eatWs1_some (l r : List Char) (h : eatWs1 l = some r) :
    ∃ w, l = w ++ r ∧ w ≠ [] ∧ w.all isWsChar = true := by
  cases l with
  | nil => cases h
  | cons c rest =>
    replace h : (if isWsChar c = true then some (rest.dropWhile isWsChar)
      else none) = some r := h
    by_cases hw : isWsChar c = true
    · rw [if_pos hw] at h
      have hr : r = rest.dropWhile isWsChar := by injection h with h'; exact h'.symm
      refine ⟨c :: rest.takeWhile isWsChar, ?_, by simp, ?_⟩
      · rw [hr, List.cons_append, List.takeWhile_append_dropWhile]
      · rw [List.all_cons, hw, Bool.true_and, List.all_eq_true]
        intro x hx
        exact List.mem_takeWhile_imp hx
    · rw [if_neg hw] at h
      cases h

theorem eatDigits_append : ∀ (d r : List Char), d.all isDigitChar = true →
    eatDigits d.length (d ++ r) = some r
  | [], r, _ => rfl
  | c :: d, r, h => by
    rw [List.all_cons, Bool.and_eq_true] at h
    show eatDigits (d.length + 1) (c :: (d ++ r)) = some r
    unfold eatDigits
    rw [if_pos h.1]
    exact eatDigits_append d r h.2

theorem dropWhile_ws_append : ∀ (w rest : List Char), w.all isWsChar = true →
    (w ++ rest).dropWhile isWsChar = rest.dropWhile isWsChar
  | [], rest, _ => rfl
  | c :: w, rest, h => by
    rw [List.all_cons, Bool.and_eq_true] at h
    rw [List.cons_append, List.dropWhile_cons, if_pos h.1]
    exact dropWhile_ws_append w rest h.2

theorem eatWs1_append (w rest : List Char) (hne : w ≠ [])
    (hall : w.all isWsChar = true) :
    eatWs1 (w ++ rest) = some (rest.dropWhile isWsChar) := by
  cases w with
  | nil => exact absurd rfl hne
  | cons c w' =>
    rw [List.all_cons, Bool.and_eq_true] at hall
    rw [List.cons_append]
    show (if isWsChar c = true then some ((w' ++ rest).dropWhile isWsChar)
      else none) = _
    rw [if_pos hall.1]
    rw [dropWhile_ws_append w' rest hall.2]

theorem eatWs1_then (w d tail : List Char) (hwne : w ≠ [])
    (hwall : w.all isWsChar = true) (hdne : d ≠ [])
    (hdall : d.all isDigitChar = true) :
    eatWs1 (w ++ (d ++ tail)) = some (d ++ tail) := by
  rw [eatWs1_append w _ hwne hwall]
  cases d with
  | nil => exact absurd rfl hdne
  | cons a d' =>
    have ha : isDigitChar a = true := by
      rw [List.all_cons, Bool.and_eq_true] at hdall
      exact hdall.1
    rw [List.cons_append, List.dropWhile_cons, digit_not_ws a ha]
    rfl

theorem eatDigits_append' (k : Nat) (d r : List Char) (hk : d.length = k)
    (h : d.all isDigitChar = true) : eatDigits k (d ++ r) = some r := by
  subst hk
  exact eatDigits_append d r h

theorem length_ne_nil {α : Type} (d : List α) (k : Nat) (hk : d.length = k)
    (h : k ≠ 0) : d ≠ [] := by
  intro hc
  rw [hc] at hk
  exact h hk.symm

/-- The executable counting pattern agrees with its declarative reading. -/
theorem timePat_iff_spec (l : Line) : timePat l = true ↔ TimePatSpec l := by
  constructor
  · intro h
    unfold timePat at h
    cases h1 : eatDigits 4 l with
    | none => rw [h1, obindNone] at h; cases h
    | some r1 =>
    rw [h1, obindOk] at h
    cases h2 : eatWs1 r1 with
    | none => rw [h2, obindNone] at h; cases h
    | some r2 =>
    rw [h2, obindOk] at h
    cases h3 : eatDigits 2 r2 with
    | none => rw [h3, obindNone] at h; cases h
    | some r3 =>
    rw [h3, obindOk] at h
    cases h4 : eatWs1 r3 with
    | none => rw [h4, obindNone] at h; cases h
    | some r4 =>
    rw [h4, obindOk] at h
    cases h5 : eatDigits 2 r4 with
    | none => rw [h5, obindNone] at h; cases h
    | some r5 =>
    rw [h5, obindOk] at h
    cases h6 : eatWs1 r5 with
    | none => rw [h6] at h; cases h
    | some r6 =>
    obtain ⟨d1, he1, hl1, ha1⟩ := eatDigits_some 4 l r1 h1
    obtain ⟨w1, he2, hn2, ha2⟩ := eatWs1_some r1 r2 h2
    obtain ⟨d2, he3, hl3, ha3⟩ := eatDigits_some 2 r2 r3 h3
    obtain ⟨w2, he4, hn4, ha4⟩ := eatWs1_some r3 r4 h4
    obtain ⟨d3, he5, hl5, ha5⟩ := eatDigits_some 2 r4 r5 h5
    obtain ⟨w3, he6, hn6, ha6⟩ := eatWs1_some r5 r6 h6
    refine ⟨d1, w1, d2, w2, d3, w3, r6,
      ?_, hl1, ha1, hl3, ha3, hl5, ha5, hn2, ha2, hn4, ha4, hn6, ha6⟩
    rw [he1, he2, he3, he4, he5, he6]
    simp [List.append_assoc]
  · rintro ⟨d1, w1, d2, w2, d3, w3, rest, hl, hl1, ha1, hl2, ha2, hl3, ha3,
      hn1, haw1, hn2, haw2, hn3, haw3⟩
    subst hl
    unfold timePat
    rw [show ((((((d1 ++ w1) ++ d2) ++ w2) ++ d3) ++ w3) ++ rest)
        = d1 ++ (w1 ++ (d2 ++ (w2 ++ (d3 ++ (w3 ++ rest)))))
      from by simp [List.append_assoc]]
    rw [eatDigits_append' 4 d1 _ hl1 ha1, obindOk]
    rw [eatWs1_then w1 d2 _ hn1 haw1 (length_ne_nil d2 2 hl2 (by omega)) ha2,
      obindOk]
    rw [eatDigits_append' 2 d2 _ hl2 ha2, obindOk]
    rw [eatWs1_then w2 d3 _ hn2 haw2 (length_ne_nil d3 2 hl3 (by omega)) ha3,
      obindOk]
    rw [eatDigits_append' 2 d3 _ hl3 ha3, obindOk]
    rw [eatWs1_append w3 rest hn3 haw3]
    rfl

/-- C4: `nTime` is the number of data lines matching the date-prefix
pattern (equivalently, its declarative reading: four digits, whitespace,
two digits, whitespace, two digits, whitespace) — not a quantity derived
from stations and line counts — and after construction the time sequence
and every listed station's six component arrays all have length exactly
`nTime`. -/
theorem C4_count_and_lengths
    (fileLines : List Line) (vers : Rev) (nSkip1 : Nat) (selLine : Line)
    (rest1 : List Line) (iOff : Int) (headLine : Line) (rest2 : List Line)
    (lastTok : Tok) (nSkip : Nat) (dataLines : List Line)
    (stats : List Station) (bs : List RecordBlock)
    (hsel : scanSelected fileLines = Except.ok (vers, nSkip1, selLine, rest1))
    (hvm : varmapLookup vers = some iOff)
    (hhead : headOf selLine rest1 = (headLine, rest2))
    (hlast : (splitWs headLine).getLast? = some lastTok)
    (hsep : scanSepAux selLine rest2 nSkip1 = Except.ok (nSkip, dataLines))
    (hstats : splitOnChar ',' lastTok = stats)
    (hnt : countTime dataLines = bs.length)
    (hdata : fileLines.drop (nSkip + (if vers = Rev.known 2 then 1 else 0))
      = flattenBlocks bs)
    (hwf : blocksOK stats iOff bs = true) :
    okProj (fun r => r.nTime) (readSupermag fileLines)
      = some (countTime dataLines) ∧
    countTime dataLines = (dataLines.filter timePat).length ∧
    (∀ l, timePat l = true ↔ TimePatSpec l) ∧
    okProj (fun r => r.time.length) (readSupermag fileLines)
      = some (countTime dataLines) ∧
    (∀ s, s ∈ stats → ∀ c,
      okProj (fun r => seqLen r.rawGrid s c) (readSupermag fileLines)
        = some (some (countTime dataLines)) ∧
      okProj (fun r => seqLen r.grid s c) (readSupermag fileLines)
        = some (some (countTime dataLines))) := by
  obtain ⟨g', hread, hlen, -⟩ :=
    readSupermag_blocks_ok fileLines vers nSkip1 selLine rest1 iOff headLine
      rest2 lastTok nSkip dataLines stats bs hsel hvm hhead hlast hsep hstats
      hnt hdata hwf
  refine ⟨by rw [hread]; rfl, countTime_eq_filter dataLines, timePat_iff_spec, ?_, ?_⟩
  · rw [hread]
    show some (bs.map stampOf).length = _
    rw [List.length_map, hnt]
  · intro s hs c
    have hslen : seqLen (initGrid stats (countTime dataLines)) s c
        = some (countTime dataLines) := by
      rw [seqLen_initGrid, if_pos hs]
    constructor
    · rw [hread]
      show some (seqLen g' s c) = _
      rw [hlen s c, hslen]
    · rw [hread]
      show some (seqLen (filterGrid g') s c) = _
      rw [seqLen_filterGrid, hlen s c, hslen]

/-- Witness for C4 at the example file: two pattern-matching lines, all
arrays of length 2. -/
theorem C4_count_and_lengths_witness :
    okProj (fun r => r.nTime) (readSupermag exFileV5)
      = some (countTime (exFileV5.drop 4)) ∧
    countTime (exFileV5.drop 4) = 2 ∧
    okProj (fun r => seqLen r.grid "BOR".data Comp.cby_geo) (readSupermag exFileV5)
      = some (some (countTime (exFileV5.drop 4))) := by
  have h := C4_count_and_lengths exFileV5 (Rev.known 5) 3
    ("Selected 2 Stations: ALE,BOR".data) (exFileV5.drop 3) (-6)
    ("Selected 2 Stations: ALE,BOR".data) (exFileV5.drop 3) ("ALE,BOR".data) 4
    (exFileV5.drop 4) ["ALE".data, "BOR".data] exBlocksV5
    (by decide) (by decide) (by decide) (by decide) (by decide) (by decide)
    (by decide) (by decide) (by decide)
  exact ⟨h.1, by decide, (h.2.2.2.2 "BOR".data (by decide) Comp.cby_geo).2⟩

/-! ### C5: unrecognized revision falls back to the latest varmap entry -/

theorem scanSelectedAux_skip (selLine : Line) (rest : List Line)
    (hselmark : containsSub selectedMark selLine = true) :
    ∀ (pre : List Line) (v : Rev) (n : Nat),
    (∀ l ∈ pre, containsSub selectedMark l = false ∧
      containsSub revisionMark l = false) →
    scanSelectedAux (pre ++ selLine :: rest) v n
      = Except.ok (v, n + pre.length, selLine, rest)
  | [], v, n, _ => by
    show scanSelectedAux (selLine :: rest) v n = _
    unfold scanSelectedAux
    rw [if_pos hselmark]
    rfl
  | p :: pre, v, n, hpre => by
    have hp := hpre p (List.mem_cons_self p pre)
    have ih := scanSelectedAux_skip selLine rest hselmark pre v (n + 1)
      (fun l hl => hpre l (List.mem_cons_of_mem p hl))
    show scanSelectedAux (p :: (pre ++ selLine :: rest)) v n = _
    unfold scanSelectedAux
    rw [if_neg (by rw [hp.1]; exact Bool.false_ne_true)]
    rw [show (if containsSub revisionMark p then
        (parseIntTok ((splitOnChar (Char.ofNat 58) p).getLastD [])).map Rev.known
      else some v) = some v from by rw [hp.2]; rfl]
    show scanSelectedAux (pre ++ selLine :: rest) v (n + 1) = _
    rw [ih, List.length_cons]
    rw [show n + 1 + pre.length = n + (pre.length + 1) from by omega]

/-- C5: if no line before the `Selected` line declares a revision, the
reader records the revision as unrecognized, raises the warning flag, and
falls back to the column offset registered for the highest known revision
number (6, offset -6). -/
theorem C5_unrecognized_revision_fallback
    (fileLines pre : List Line) (selLine : Line) (rest : List Line)
    (hfile : fileLines = pre ++ selLine :: rest)
    (hpre : ∀ l ∈ pre, containsSub selectedMark l = false ∧
      containsSub revisionMark l = false)
    (hselmark : containsSub selectedMark selLine = true)
    (hok : isErr (readSupermag fileLines) = false) :
    okProj (fun r => (r.vers, r.warned, r.iOff)) (readSupermag fileLines)
      = some (Rev.unrecognized, true, -6) ∧
    varmapLookup Rev.unrecognized = varmapPairs.lookup maxKnownRev ∧
    maxKnownRev = 6 ∧ varmapPairs.lookup maxKnownRev = some (-6) := by
  cases hr : readSupermag fileLines with
  | error e => rw [hr] at hok; exact absurd hok (by simp [isErr])
  | ok r =>
    obtain ⟨-, -, hwarn, hvm, nSkip1, selLine1, rest1, hscan1⟩ :=
      readSupermag_ok_inv fileLines r hr
    have hscan : scanSelected fileLines
        = Except.ok (Rev.unrecognized, 1 + pre.length, selLine, rest) := by
      rw [hfile]
      exact scanSelectedAux_skip selLine rest hselmark pre Rev.unrecognized 1 hpre
    rw [hscan1] at hscan
    have hv : r.vers = Rev.unrecognized := by
      have := congrArg (fun q => match q with
        | Except.ok (v, _, _, _) => v
        | Except.error _ => Rev.unrecognized) hscan
      exact this
    have hio : r.iOff = -6 := by
      rw [hv] at hvm
      have hvtop : varmapLookup Rev.unrecognized = some (-6) := by decide
      rw [hvtop] at hvm
      exact (Option.some_inj.mp hvm).symm
    refine ⟨?_, rfl, by decide, by decide⟩
    show some (r.vers, r.warned, r.iOff) = _
    rw [hwarn, hv, hio]
    rfl

/-- Witness for C5 at the revision-free example file: reading succeeds with
the unrecognized revision, warning flag up, and fallback offset -6. -/
theorem C5_unrecognized_revision_fallback_witness :
    isErr (readSupermag exFileNoRev) = false ∧
    okProj (fun r => (r.vers, r.warned, r.iOff)) (readSupermag exFileNoRev)
      = some (Rev.unrecognized, true, -6) := by
  refine ⟨by decide, ?_⟩
  exact (C5_unrecognized_revision_fallback exFileNoRev
    ["SuperMAG data file".data] ("Selected 2 Stations: ALE,BOR".data)
    (exFileNoRev.drop 2) (by decide) (by decide) (by decide) (by decide)).1

/-! ### C8: malformed timestamps abort the whole read -/

/-- C8 (amended): if after some well-formed record blocks the next record's
time line fails strptime's decoding of its joined six tokens — the
flexible-width field regexes with the leftover check, not a fixed 14-digit
form — while more records remain to be read, `readSupermag` raises a value
error: the whole construction aborts and no result object is produced. -/
theorem C8_bad_timestamp_aborts
    (fileLines : List Line) (vers : Rev) (nSkip1 : Nat) (selLine : Line)
    (rest1 : List Line) (iOff : Int) (headLine : Line) (rest2 : List Line)
    (lastTok : Tok) (nSkip : Nat) (dataLines : List Line)
    (stats : List Station) (bs : List RecordBlock) (badLine : Line)
    (tail2 : List Line)
    (hsel : scanSelected fileLines = Except.ok (vers, nSkip1, selLine, rest1))
    (hvm : varmapLookup vers = some iOff)
    (hhead : headOf selLine rest1 = (headLine, rest2))
    (hlast : (splitWs headLine).getLast? = some lastTok)
    (hsep : scanSepAux selLine rest2 nSkip1 = Except.ok (nSkip, dataLines))
    (hstats : splitOnChar (Char.ofNat 44) lastTok = stats)
    (hdata : fileLines.drop (nSkip + (if vers = Rev.known 2 then 1 else 0))
      = flattenBlocks bs ++ badLine :: tail2)
    (hwf : blocksOK stats iOff bs = true)
    (hfuel : bs.length < countTime dataLines)
    (hbad : parseStampJoined (splitWs badLine) = none)
    (hnotstat : badLine.take 3 ∉ stats) :
    readSupermag fileLines = Except.error Err.valueError ∧
    ∀ r : SMResult, readSupermag fileLines ≠ Except.ok r := by
  subst hstats
  have htail : ∀ l, (badLine :: tail2).head? = some l →
      l.take 3 ∉ splitOnChar (Char.ofNat 44) lastTok := by
    intro l hl
    rw [List.head?_cons, Option.some_inj] at hl
    rw [← hl]
    exact hnotstat
  obtain ⟨g', hrun, -, -, -, -⟩ :=
    fillRecords_blocks (splitOnChar (Char.ofNat 44) lastTok) iOff
      (badLine :: tail2) (countTime dataLines - bs.length) htail bs 0
      (initGrid (splitOnChar (Char.ofNat 44) lastTok) (countTime dataLines)) []
      hwf (initGrid_cov (splitOnChar (Char.ofNat 44) lastTok) (countTime dataLines))
  obtain ⟨F', hF'⟩ : ∃ F', countTime dataLines - bs.length = F' + 1 :=
    ⟨countTime dataLines - bs.length - 1, by omega⟩
  rw [hF', fillRecords_succ_cons, hbad] at hrun
  have hct : countTime dataLines = bs.length + (F' + 1) := by omega
  have hfill : fillRecords (splitOnChar (Char.ofNat 44) lastTok) iOff 0
      (countTime dataLines)
      (fileLines.drop (nSkip + (if vers = Rev.known 2 then 1 else 0)))
      (initGrid (splitOnChar (Char.ofNat 44) lastTok) (countTime dataLines)) []
      = Except.error Err.valueError := by
    rw [hdata]
    rw [← hct] at hrun
    exact hrun
  have herr := readSupermag_run_err fileLines vers nSkip1 selLine rest1 iOff
    headLine rest2 lastTok nSkip dataLines Err.valueError hsel hvm hhead hlast
    hsep hfill
  refine ⟨herr, ?_⟩
  intro r hr
  rw [herr] at hr
  exact Except.noConfusion hr

/-- C8 counterexample: the record line with one-digit hour, minute and
second fields does not decode under a fixed-width `%Y%m%d%H%M%S` reading
(its join has 11 characters, not 14), yet strptime accepts it and the whole
read succeeds — such a line does not abort the construction. -/
theorem C8_flexible_widths_counterexample :
    ((splitWs ("2001 01 01 0 0 0".data)).take 6).flatten.length = 11 ∧
    parseStampJoined (splitWs ("2001 01 01 0 0 0".data))
      = some (DT.mk 2001 1 1 0 0 0) ∧
    isErr (readSupermag exFileFlexStamp) = false ∧
    okProj (fun r => r.time) (readSupermag exFileFlexStamp)
      = some [DT.mk 2001 1 1 0 0 0] := by
  exact ⟨by decide, by decide, by decide, by decide⟩

/-- Witness for C8 at the example file whose single record line carries
month 13: the read raises the value error. -/
theorem C8_bad_timestamp_aborts_witness :
    readSupermag exFileBadStamp = Except.error Err.valueError := by
  exact (C8_bad_timestamp_aborts exFileBadStamp (Rev.known 5) 3
    ("Selected 2 Stations: ALE,BOR".data) (exFileBadStamp.drop 3) (-6)
    ("Selected 2 Stations: ALE,BOR".data) (exFileBadStamp.drop 3)
    ("ALE,BOR".data) 4 (exFileBadStamp.drop 4) ["ALE".data, "BOR".data]
    [] ("2001 13 01 00 00 00".data) ["ALE -8.60 5.80 -2.60 1.10 2.20 3.30".data]
    (by decide) (by decide) (by decide) (by decide) (by decide) (by decide)
    (by decide) (by decide) (by decide) (by decide) (by decide)).1

/-! ### C1: scope of the bad-data filter -/

unseal Rat.mul Rat.add Rat.sub Rat.inv in
/-- C1 counterexample: in the example file, station BOR is absent from the
second record, so its `bx_geo` entry at index 1 still holds the sentinel
`999999` after construction — the filter never touches the `_geo` arrays. -/
theorem C1_geo_keeps_sentinel_counterexample :
    okProj (fun r => gridAt r.grid "BOR".data Comp.cbx_geo 1) (readSupermag exFileV5)
      = some (some (some 999999)) ∧ (999999 : ℚ) ≥ 999999 := by
  exact ⟨by decide, by decide⟩

/-- C1 (amended): after a successful read, the sentinel conversion applies
exactly to the three non-geo components: every value surviving in a `bx`,
`by` or `bz` array is strictly below `999999` (values at or above the
sentinel became the missing marker), while the three `_geo` arrays are
returned exactly as parsed, unfiltered. -/
theorem C1_sentinel_filter_scope
    (fileLines : List Line) (s : Station) (c : Comp) (j : Nat)
    (hok : isErr (readSupermag fileLines) = false) :
    (c.isNez = true → ∀ q : ℚ,
      okProj (fun r => gridAt r.grid s c j) (readSupermag fileLines)
        = some (some (some q)) → q < 999999) ∧
    (c.isNez = false →
      okProj (fun r => gridAt r.grid s c j) (readSupermag fileLines)
        = okProj (fun r => gridAt r.rawGrid s c j) (readSupermag fileLines)) := by
  cases hr : readSupermag fileLines with
  | error e => rw [hr] at hok; exact absurd hok (by simp [isErr])
  | ok r =>
    obtain ⟨hg, -, -, -, -⟩ := readSupermag_ok_inv fileLines r hr
    constructor
    · intro hc q hq
      replace hq : gridAt r.grid s c j = some (some q) :=
        Option.some_inj.mp hq
      rw [hg, gridAt_filterGrid] at hq
      cases hraw : gridAt r.rawGrid s c j with
      | none => rw [hraw] at hq; exact absurd hq (by simp)
      | some v =>
        rw [hraw, Option.map_some', filterVal_eq, if_pos hc] at hq
        replace hq : filterEntry v = some q := Option.some_inj.mp hq
        cases v with
        | none => exact absurd hq (by simp [filterEntry])
        | some q0 =>
          replace hq : (if (999999 : ℚ) ≤ q0 then none else some q0) = some q := hq
          by_cases hle : (999999 : ℚ) ≤ q0
          · rw [if_pos hle] at hq
            exact absurd hq (by simp)
          · rw [if_neg hle] at hq
            rw [← Option.some_inj.mp hq]
            exact lt_of_not_le hle
    · intro hc
      show some (gridAt r.grid s c j) = some (gridAt r.rawGrid s c j)
      rw [hg, gridAt_filterGrid]
      cases hraw : gridAt r.rawGrid s c j with
      | none => rfl
      | some v =>
        rw [Option.map_some', filterVal_eq,
          if_neg (show ¬(c.isNez = true) from by rw [hc]; exact Bool.false_ne_true)]

unseal Rat.mul Rat.add Rat.sub Rat.inv in
/-- Witness for the amended C1 at the example file: the surviving ALE `bx`
value at index 0 is `-8.6`, strictly below the sentinel. -/
theorem C1_sentinel_filter_scope_witness :
    isErr (readSupermag exFileV5) = false ∧
    okProj (fun r => gridAt r.grid "ALE".data Comp.cbx 0) (readSupermag exFileV5)
      = some (some (some (-43/5))) ∧ (-43/5 : ℚ) < 999999 := by
  refine ⟨by decide, by decide, ?_⟩
  exact (C1_sentinel_filter_scope exFileV5 "ALE".data Comp.cbx 0
    (by decide)).1 rfl (-43/5) (by decide)

/-! ### C7: the derived magnitude includes the vertical component -/

/-- C7 counterexample: `calc_btotal`, the derived per-station magnitude,
is the three-component Euclidean norm: with north 3, east 4 and vertical 12
it yields 13, not the claimed 5 — the vertical component is not ignored. -/
theorem C7_btotal_uses_vertical_counterexample :
    Real.sqrt ((calc_btotal_sq 3 4 12 : ℚ) : ℝ) = 13 ∧ (13 : ℝ) ≠ 5 := by
  constructor
  · have hc : ((calc_btotal_sq 3 4 12 : ℚ) : ℝ) = 169 := by
      norm_num [calc_btotal_sq]
    rw [hc, show (169 : ℝ) = 13 ^ 2 from by norm_num,
      Real.sqrt_sq (by norm_num : (0:ℝ) ≤ 13)]
  · norm_num

/-- C7 (amended): the two-component horizontal norm of the dead `calc_H`
block does give 5 at north 3, east 4; the live `calc_btotal` magnitude at
north 3, east 4 equals 5 exactly when the vertical component is 0 — it
depends on the vertical value. -/
theorem C7_magnitude_formulas :
    Real.sqrt ((calc_H_sq 3 4 : ℚ) : ℝ) = 5 ∧
    ∀ z : ℚ, (Real.sqrt ((calc_btotal_sq 3 4 z : ℚ) : ℝ) = 5 ↔ z = 0) := by
  constructor
  · have hc : ((calc_H_sq 3 4 : ℚ) : ℝ) = 25 := by
      norm_num [calc_H_sq]
    rw [hc, show (25 : ℝ) = 5 ^ 2 from by norm_num,
      Real.sqrt_sq (by norm_num : (0:ℝ) ≤ 5)]
  · intro z
    have hc : ((calc_btotal_sq 3 4 z : ℚ) : ℝ) = 25 + (z : ℝ) ^ 2 := by
      unfold calc_btotal_sq
      push_cast
      ring
    have h5 : (5 : ℝ) = Real.sqrt 25 := by
      rw [show (25 : ℝ) = 5 ^ 2 from by norm_num,
        Real.sqrt_sq (by norm_num : (0:ℝ) ≤ 5)]
    rw [hc, h5, Real.sqrt_inj (by positivity) (by norm_num)]
    constructor
    · intro h
      have hz2 : (z : ℝ) ^ 2 = 0 := by linarith
      have hz : (z : ℝ) = 0 := by
        exact pow_eq_zero_iff (by norm_num) |>.mp hz2
      exact_mod_cast hz
    · intro h
      rw [h]
      norm_num

/-! ### C9: local-time wrap only ever subtracts -/

/-- C9 counterexample: at midnight with longitude -90 the stored local time
is -6, outside the claimed interval [0, 24) — the wrap step only subtracts
24 from values at or above 24 and never lifts negative values. -/
theorem C9_negative_longitude_counterexample :
    ltOf (hoursOf (DT.mk 2001 1 1 0 0 0)) (-90) = -6 ∧ ¬ (0 ≤ (-6 : ℚ)) := by
  constructor
  · norm_num [ltOf, hoursOf]
  · norm_num

/-- C9 (amended): for valid time-of-day fields and a longitude in
[0, 360), the stored local time is `hours + geolon*24/360`, minus 24 when
that sum reaches 24, and lies in [0, 24); the claim's full range fails only
for negative longitudes (see the counterexample). -/
theorem C9_local_time_wrap (t : DT) (γ : ℚ)
    (hh : t.hour ≤ 23) (hm : t.minute ≤ 59) (hs : t.sec ≤ 59)
    (hg0 : 0 ≤ γ) (hg : γ < 360) :
    0 ≤ ltOf (hoursOf t) γ ∧ ltOf (hoursOf t) γ < 24 ∧
    (ltOf (hoursOf t) γ = hoursOf t + γ * 24 / 360 ∨
     ltOf (hoursOf t) γ = hoursOf t + γ * 24 / 360 - 24) := by
  have hH0 : 0 ≤ hoursOf t := by
    unfold hoursOf
    positivity
  have hH : hoursOf t < 24 := by
    have h1 : (t.hour : ℚ) ≤ 23 := by exact_mod_cast hh
    have h2 : (t.minute : ℚ) ≤ 59 := by exact_mod_cast hm
    have h3 : (t.sec : ℚ) ≤ 59 := by exact_mod_cast hs
    unfold hoursOf
    linarith
  have hG0 : 0 ≤ γ * 24 / 360 := by positivity
  have hG : γ * 24 / 360 < 24 := by
    linarith
  have hdef : ltOf (hoursOf t) γ =
      if 24 ≤ hoursOf t + γ * 24 / 360 then hoursOf t + γ * 24 / 360 - 24
      else hoursOf t + γ * 24 / 360 := rfl
  rw [hdef]
  by_cases hcase : 24 ≤ hoursOf t + γ * 24 / 360
  · rw [if_pos hcase]
    exact ⟨by linarith, by linarith, Or.inr rfl⟩
  · rw [if_neg hcase]
    exact ⟨by linarith, by linarith [not_le.mp hcase], Or.inl rfl⟩

/-- Witness for the amended C9: one second before midnight at longitude
350 the local time wraps back into [0, 24). -/
theorem C9_local_time_wrap_witness :
    0 ≤ ltOf (hoursOf (DT.mk 2001 1 1 23 59 59)) 350 ∧
    ltOf (hoursOf (DT.mk 2001 1 1 23 59 59)) 350 < 24 := by
  have h := C9_local_time_wrap (DT.mk 2001 1 1 23 59 59) 350
    (by decide) (by decide) (by decide) (by decide) (by decide)
  exact ⟨h.1, h.2.1⟩

/-! ### C10: the IndexFile truncating zip and zero initialization -/

theorem lookupV_idxInit (v : Tok) : ∀ (varnames : List Tok) (n : Nat),
    lookupV (idxInit varnames n) v
      = if v ∈ varnames then some (List.replicate n (0 : ℚ)) else none
  | [], n => by
    show (none : Option (List ℚ)) = if v ∈ ([] : List Tok) then _ else none
    rw [if_neg (by simp)]
  | w :: rest, n => by
    show (if w = v then some (List.replicate n (0:ℚ))
        else lookupV (idxInit rest n) v) = _
    by_cases hw : w = v
    · rw [if_pos hw,
        if_pos (show v ∈ w :: rest from by rw [hw]; exact List.mem_cons_self v rest)]
    · rw [if_neg hw, lookupV_idxInit v rest n]
      by_cases hv : v ∈ rest
      · rw [if_pos hv, if_pos (List.mem_cons_of_mem w hv)]
      · rw [if_neg hv,
          if_neg (fun hc => (List.mem_cons.mp hc).elim (fun h1 => hw h1.symm) hv)]

theorem lookupV_updVar (v v2 : Tok) (f : List ℚ → List ℚ) : ∀ (vs : IdxVars),
    lookupV (updVar vs v2 f) v
      = if v = v2 then (lookupV vs v).map f else lookupV vs v
  | [] => by
    show (none : Option (List ℚ)) = if v = v2 then Option.map f none else none
    by_cases h : v = v2
    · rw [if_pos h]; rfl
    · rw [if_neg h]
  | (w, xs) :: rest => by
    have hcons : ∀ (h : ¬ w = v), lookupV ((w, xs) :: rest) v = lookupV rest v := by
      intro h
      show (if w = v then some xs else lookupV rest v) = _
      rw [if_neg h]
    by_cases hwv2 : w = v2
    · show lookupV ((if w = v2 then (w, f xs) else (w, xs)) :: updVar rest v2 f) v = _
      rw [if_pos hwv2]
      show (if w = v then some (f xs) else lookupV (updVar rest v2 f) v) = _
      by_cases hwv : w = v
      · rw [if_pos hwv, if_pos (hwv.symm.trans hwv2)]
        show some (f xs) = Option.map f (if w = v then some xs else lookupV rest v)
        rw [if_pos hwv]
        rfl
      · rw [if_neg hwv, lookupV_updVar v v2 f rest, hcons hwv]
    · show lookupV ((if w = v2 then (w, f xs) else (w, xs)) :: updVar rest v2 f) v = _
      rw [if_neg hwv2]
      show (if w = v then some xs else lookupV (updVar rest v2 f) v) = _
      by_cases hwv : w = v
      · rw [if_pos hwv, if_neg (show ¬ v = v2 from fun hc => hwv2 (hwv.trans hc))]
        show some xs = (if w = v then some xs else lookupV rest v)
        rw [if_pos hwv]
      · rw [if_neg hwv, lookupV_updVar v v2 f rest, hcons hwv]

theorem idxAt_updVar_ne (vs : IdxVars) (v v2 : Tok) (i : Nat) (q : ℚ) (j : Nat)
    (hj : j ≠ i) :
    idxAt (updVar vs v2 (fun xs => listSet xs i q)) v j = idxAt vs v j := by
  rw [idxAt, idxAt, lookupV_updVar]
  by_cases h : v = v2
  · rw [if_pos h]
    cases hl : lookupV vs v with
    | none => rfl
    | some xs =>
      rw [Option.map_some']
      show (listSet xs i q).get? j = xs.get? j
      exact get?_listSet_ne xs i q j hj
  · rw [if_neg h]

theorem idxFillRow_spec (i : Nat) : ∀ (pairs : List (Tok × Tok)) (vs : IdxVars),
    (∀ p ∈ pairs, (parseFloat p.2).isSome = true) →
    ∃ vs2, idxFillRow i pairs vs = Except.ok vs2 ∧
      (∀ v j, j ≠ i → idxAt vs2 v j = idxAt vs v j) ∧
      (∀ v, v ∉ pairs.map Prod.fst → lookupV vs2 v = lookupV vs v)
  | [], vs, _ => ⟨vs, rfl, fun v j _ => rfl, fun v _ => rfl⟩
  | (w, x) :: rest, vs, hp => by
    have hx := hp (w, x) (List.mem_cons_self _ _)
    obtain ⟨q, hq⟩ := Option.isSome_iff_exists.mp hx
    obtain ⟨vs2, hrun, hne, hnm⟩ := idxFillRow_spec i rest
      (updVar vs w (fun xs => listSet xs i q))
      (fun p hp2 => hp p (List.mem_cons_of_mem _ hp2))
    refine ⟨vs2, ?_, ?_, ?_⟩
    · show (match parseFloat x with
        | none => Except.error Err.valueError
        | some q => idxFillRow i rest (updVar vs w (fun xs => listSet xs i q))) = _
      rw [hq]
      exact hrun
    · intro v j hj
      rw [hne v j hj, idxAt_updVar_ne vs v w i q j hj]
    · intro v hv
      rw [List.map_cons] at hv
      have hv1 : v ∉ rest.map Prod.fst := fun hc => hv (List.mem_cons_of_mem _ hc)
      have hv2 : ¬ v = w := fun hc => hv (by rw [hc]; exact List.mem_cons_self _ _)
      rw [hnm v hv1, lookupV_updVar, if_neg hv2]

theorem idxFillRows_spec (varnames : List Tok) :
    ∀ (lines : List Line) (i : Nat) (vs : IdxVars) (acc : List DT),
    (∀ l ∈ lines, (parseStampSpaced (splitWs l)).isSome = true ∧
      ∀ p ∈ List.zip varnames ((splitWs l).drop 6), (parseFloat p.2).isSome = true) →
    ∃ times vs2,
      idxFillRows varnames i lines vs acc = Except.ok (times, vs2) ∧
      (∀ v j, j < i → idxAt vs2 v j = idxAt vs v j) ∧
      (∀ k l, lines.get? k = some l → ∀ v,
        v ∉ (List.zip varnames ((splitWs l).drop 6)).map Prod.fst →
        idxAt vs2 v (i + k) = idxAt vs v (i + k))
  | [], i, vs, acc, _ => ⟨acc.reverse, vs, rfl, fun v j _ => rfl,
      fun k l hget => absurd hget (by simp)⟩
  | l :: rest, i, vs, acc, hrows => by
    have hl := hrows l (List.mem_cons_self _ _)
    obtain ⟨t, ht⟩ := Option.isSome_iff_exists.mp hl.1
    obtain ⟨vs1, hrow, hne1, hnm1⟩ := idxFillRow_spec i
      (List.zip varnames ((splitWs l).drop 6)) vs hl.2
    obtain ⟨times, vs2, hrun, hlt, hk⟩ := idxFillRows_spec varnames rest (i+1)
      vs1 (t :: acc) (fun l2 hl2 => hrows l2 (List.mem_cons_of_mem _ hl2))
    refine ⟨times, vs2, ?_, ?_, ?_⟩
    · have step1 : idxFillRows varnames i (l :: rest) vs acc
          = idxFillRows varnames (i+1) rest vs1 (t :: acc) := by
        show (match parseStampSpaced (splitWs l) with
          | none => Except.error Err.valueError
          | some t2 =>
            idxFillRow i (List.zip varnames ((splitWs l).drop 6)) vs >>= fun vs3 =>
              idxFillRows varnames (i+1) rest vs3 (t2 :: acc)) = _
        rw [ht]
        show idxFillRow i (List.zip varnames ((splitWs l).drop 6)) vs >>=
            (fun vs3 => idxFillRows varnames (i+1) rest vs3 (t :: acc)) = _
        rw [hrow, bindOk]
      rw [step1]
      exact hrun
    · intro v j hj
      rw [hlt v j (Nat.lt_succ_of_lt hj), hne1 v j (Nat.ne_of_lt hj)]
    · intro k l2 hget v hnm
      cases k with
      | zero =>
        have hl2 : l = l2 := Option.some_inj.mp hget
        rw [← hl2] at hnm
        show idxAt vs2 v (i + 0) = idxAt vs v (i + 0)
        rw [hlt v (i + 0) (Nat.lt_succ_self i), idxAt, idxAt,
          hnm1 v hnm]
      | succ k2 =>
        have hget2 : rest.get? k2 = some l2 := hget
        have harith : i + (k2 + 1) = (i + 1) + k2 := by omega
        rw [harith, hk k2 l2 hget2 v hnm,
          hne1 v ((i + 1) + k2) (by omega)]

/-- C10: IndexFile arrays start as zeros, and each row is filled through a
truncating zip of the declared variable names with the row tokens after the
first six; a row with fewer value tokens than variables raises no error and
the unmatched variables keep exactly 0 at that row's index. -/
theorem C10_truncating_zip_keeps_zero
    (varnames : List Tok) (lines : List Line)
    (hrows : ∀ l ∈ lines, (parseStampSpaced (splitWs l)).isSome = true ∧
      ∀ p ∈ List.zip varnames ((splitWs l).drop 6), (parseFloat p.2).isSome = true) :
    isErr (readIndexFile varnames lines) = false ∧
    (∀ v ∈ varnames, ∀ k, k < lines.length →
      idxAt (idxInit varnames lines.length) v k = some 0) ∧
    (∀ k l, lines.get? k = some l → ∀ v, v ∈ varnames →
      v ∉ (List.zip varnames ((splitWs l).drop 6)).map Prod.fst →
      okProj (fun r => idxAt r.2 v k) (readIndexFile varnames lines)
        = some (some 0)) := by
  obtain ⟨times, vs2, hrun, -, hk⟩ :=
    idxFillRows_spec varnames lines 0 (idxInit varnames lines.length) [] hrows
  have hinit : ∀ v, v ∈ varnames → ∀ k, k < lines.length →
      idxAt (idxInit varnames lines.length) v k = some 0 := by
    intro v hv k hklt
    rw [idxAt, lookupV_idxInit, if_pos hv]
    show (List.replicate lines.length (0:ℚ)).get? k = some 0
    rw [get?_replicate', if_pos hklt]
  refine ⟨?_, hinit, ?_⟩
  · show isErr (idxFillRows varnames 0 lines (idxInit varnames lines.length) []) = false
    rw [hrun]
    rfl
  · intro k l hget v hv hnm
    have hklt : k < lines.length := by
      by_contra hc
      rw [List.get?_eq_none.mpr (Nat.le_of_not_lt hc)] at hget
      exact Option.noConfusion hget
    show okProj (fun r => idxAt r.2 v k)
      (idxFillRows varnames 0 lines (idxInit varnames lines.length) [])
      = some (some 0)
    rw [hrun]
    show some (idxAt vs2 v k) = some (some 0)
    have h0 := hk k l hget v hnm
    rw [Nat.zero_add] at h0
    rw [h0, hinit v hv k hklt]

unseal Rat.mul Rat.add Rat.sub Rat.inv in
/-- Witness for C10: two declared variables but only one value token on the
row; the read succeeds and `SMU` keeps 0 at row 0. -/
theorem C10_truncating_zip_keeps_zero_witness :
    isErr (readIndexFile ["SML".data, "SMU".data]
      ["2001 01 01 00 00 00 107".data]) = false ∧
    okProj (fun r => idxAt r.2 "SMU".data 0)
      (readIndexFile ["SML".data, "SMU".data]
        ["2001 01 01 00 00 00 107".data]) = some (some 0) := by
  have h := C10_truncating_zip_keeps_zero ["SML".data, "SMU".data]
    ["2001 01 01 00 00 00 107".data] (by decide)
  exact ⟨h.1, h.2.2 0 ("2001 01 01 00 00 00 107".data) (by decide)
    ("SMU".data) (by decide) (by decide)⟩

end Supermag
